import Mathlib

/-!  Verification development for the fbo-sync reconciliation engine.

Shallow embedding of src/fbo/sync.py, src/fbo/ms_api.py and
src/fbo/config.py.  External collaborators (the HTTP transport, datetime
parsing/formatting, the downstream MoySklad server and the Ozon order
source) are modelled as explicit deterministic environment functions,
matching the single-threaded blocking call model of the source.

The transfer-document ("move") collaborators are the one place where the
repository's own code is missing from src/: sync.py calls
ms.find_move_by_name / ms.create_move and reads cfg.ms_move_*_id, none of
which exist in src/fbo/ms_api.py or src/fbo/config.py.  Definitions for
those are modelled from the spec and are marked as such below; the rest is
translated from the source.  -/

namespace FboSync

/-! ### Python string helpers (semantics of the `or` / strip / case idioms) -/

/-- Python `a or b` on strings: `""` is falsy. -/
def pyOrS (a b : String) : String := if a = "" then b else a

def isWsChar (c : Char) : Bool := c = ' ' || c = '\t' || c = '\n' || c = '\r'

def stripList (p : Char → Bool) (l : List Char) : List Char :=
  ((l.dropWhile p).reverse.dropWhile p).reverse

/-- Python `str.strip()` (whitespace). -/
def pyStrip (s : String) : String := String.mk (stripList isWsChar s.toList)

/-- Python `str.strip(chars)` for an explicit character set. -/
def pyStripSet (cs : List Char) (s : String) : String :=
  String.mk (stripList (fun c => cs.contains c) s.toList)

/-- Python `str.upper()` restricted to ASCII and the basic Cyrillic block,
the alphabets the program's article lookups use. -/
def pyUpperChar (c : Char) : Char :=
  if 'a' ≤ c ∧ c ≤ 'z' then Char.ofNat (c.toNat - 32)
  else if 'а' ≤ c ∧ c ≤ 'я' then Char.ofNat (c.toNat - 32)
  else if c = 'ё' then 'Ё'
  else c

/-- Python `str.lower()` restricted to ASCII and the basic Cyrillic block. -/
def pyLowerChar (c : Char) : Char :=
  if 'A' ≤ c ∧ c ≤ 'Z' then Char.ofNat (c.toNat + 32)
  else if 'А' ≤ c ∧ c ≤ 'Я' then Char.ofNat (c.toNat + 32)
  else if c = 'Ё' then 'ё'
  else c

def pyLower (s : String) : String := String.mk (s.toList.map pyLowerChar)

/-- Split a character list at every occurrence of `c` (the semantics of
`str.split(c)` for a single-character separator). -/
def splitOnChar (c : Char) : List Char → List (List Char)
  | [] => [[]]
  | x :: xs =>
    let r := splitOnChar c xs
    if x = c then [] :: r
    else
      match r with
      | [] => [[x]]
      | h :: t => (x :: h) :: t

/-- Join character-list segments with `c` (the semantics of
`c.join(segments)`). -/
def joinWithChar (c : Char) : List (List Char) → List Char
  | [] => []
  | [x] => x
  | x :: y :: t => x ++ c :: joinWithChar c (y :: t)

/-- `needle` starts the list `hay`. -/
def listStarts : List Char → List Char → Bool
  | [], _ => true
  | _ :: _, [] => false
  | a :: as, b :: bs => a = b && listStarts as bs

/-- `needle` occurs somewhere in `hay`. -/
def listHasSub (n : List Char) : List Char → Bool
  | [] => n.isEmpty
  | c :: rest => listStarts n (c :: rest) || listHasSub n rest

/-- Python `needle in hay`. -/
def containsSub (hay needle : String) : Bool := listHasSub needle.toList hay.toList

/-! ### sync.py lines 14-28: state sets -/

def ACTIVE_STATES : List String :=
  ["READY_TO_SUPPLY", "ACCEPTED_AT_SUPPLY_WAREHOUSE", "IN_TRANSIT",
   "ACCEPTANCE_AT_STORAGE_WAREHOUSE", "REPORTS_CONFIRMATION_AWAITING",
   "COMPLETED", "OVERDUE"]

def CANCELLED_STATES : List String :=
  ["CANCELLED", "REJECTED_AT_SUPPLY_WAREHOUSE", "REPORT_REJECTED"]

/-! ### sync.py lines 59-69: offer id normalization -/

/-- sync.py lines 62-67: the Cyrillic-to-Latin lookalike fold (applied after
`.upper()`, so only uppercase Cyrillic is mapped) together with the dash
unification. -/
def foldChar (c : Char) : Char :=
  if c = 'А' then 'A' else if c = 'В' then 'B' else if c = 'Е' then 'E'
  else if c = 'К' then 'K' else if c = 'М' then 'M' else if c = 'Н' then 'H'
  else if c = 'О' then 'O' else if c = 'Р' then 'P' else if c = 'С' then 'C'
  else if c = 'Т' then 'T' else if c = 'Х' then 'X'
  else if c = '–' then '-' else if c = '—' then '-'
  else c

/-- sync.py lines 59-69. -/
def normalize_offer_id (s : String) : String :=
  let t := (stripList isWsChar s.toList).map (fun c => foldChar (pyUpperChar c))
  String.mk (joinWithChar '-' ((splitOnChar '-' t).map (stripList isWsChar)))

/-! ### http_client.py: HttpError, and the error classifiers local to
sync_once (sync.py lines 230-236; these, not the module-level
is_ms_name_conflict / is_ms_stock_error of lines 31-45, are the ones the
pass applies). -/

structure HttpErr where
  status : Int
  body : Option String
deriving DecidableEq

def errBody (e : HttpErr) : String := pyLower (e.body.getD "")

/-- sync.py lines 230-232. -/
def _is_name_conflict (e : HttpErr) : Bool :=
  e.status = 409 || e.status = 412 || e.status = 422 ||
    (containsSub (errBody e) "name" &&
      (containsSub (errBody e) "уже" || containsSub (errBody e) "exists" ||
        containsSub (errBody e) "unique"))

/-- sync.py lines 234-236. -/
def _is_stock_error (e : HttpErr) : Bool :=
  (["остат", "stock", "not enough", "недостат", "available", "quantity"].any
    (fun n => containsSub (errBody e) n))

/-! ### Price-list entries and the default sale price policy -/

/-- One element of an item's `salePrices` list.  `priceTypeName` is
`(p.get("priceType") or {}).get("name")`; `value` is the result of
`int(round(float(p.get("value")), 0))`, with `none` standing for a missing
or non-convertible value (the `except` branch of the source). -/
structure SalePriceEntry where
  priceTypeName : Option String
  value : Option Int
deriving DecidableEq

/-- A fetched catalog entity (product or variant): its `meta.href` and its
`salePrices` list. -/
structure MsItem where
  href : String
  salePrices : List SalePriceEntry
deriving DecidableEq

/-- The hardcoded preferred price label of sync.py line 83. -/
def defaultSalePriceName : String := "Цена продажи"

/-- The scan of sync.py lines 81-87: first entry whose priceType name equals
the preferred label exactly. -/
def firstLabeled : List SalePriceEntry → Option SalePriceEntry
  | [] => none
  | p :: ps =>
    if p.priceTypeName = some defaultSalePriceName then some p else firstLabeled ps

/-- sync.py lines 78-93. -/
def ms_default_sale_price (it : MsItem) : Option Int :=
  match firstLabeled it.salePrices with
  | some p => p.value
  | none =>
    match it.salePrices with
    | [] => none
    | p :: _ => p.value

/-! ### The downstream catalog (MoySklad read side) -/

/-- One row of `GET /entity/bundle/{id}/components`.  `href` and `typ` come
from `(c.get("assortment") or {}).get("meta")`; `""` stands for a missing or
falsy value.  `quantity` is the rounded `c.quantity` with `none` for an
absent value (which sync.py lines 159-162 turn into `1`). -/
structure CompRow where
  href : String
  typ : String
  quantity : Option Int
deriving DecidableEq

/-- The deterministic read side of the downstream catalog, as seen through
MsApi (ms_api.py lines 26-43): article searches (filter + limit 1 returning
the first row's id), entity fetches, and the full server-side component
collection of a bundle. -/
structure Catalog where
  productRow : String → Option String
  bundleRow : String → Option String
  getProduct : String → MsItem
  getVariant : String → MsItem
  getBundleMeta : String → String
  bundleComponents : String → List CompRow

/-! ### Assortment records (the cache schema of resolve_assortment) -/

structure Meta where
  href : String
  type : String
  mediaType : String
deriving DecidableEq

/-- ms_api.py lines 8-9. -/
def meta (href type_ : String) : Meta := ⟨href, type_, "application/json"⟩

structure CompRec where
  meta : Meta
  qty : Int
  price : Int
deriving DecidableEq

/-- The record schema of resolve_assortment (sync.py lines 104-107). -/
inductive Rec where
  | product (meta : Meta) (price : Int) (article : String)
  | bundle (meta : Meta) (components : List CompRec) (article : String)
deriving DecidableEq

/-- `href.rstrip("/").split("/")[-1]` (sync.py line 146). -/
def lastSeg (h : String) : String :=
  String.mk
    ((splitOnChar '/' ((h.toList.reverse.dropWhile (fun c => c = '/')).reverse)).getLastD [])

/-- sync.py lines 136-168: the per-component loop of the bundle branch of
resolve_assortment. -/
def resolveComponents (cat : Catalog) (key : String) :
    List CompRow → Except String (List CompRec)
  | [] => .ok []
  | c :: rest =>
    if c.href = "" ∨ c.typ = "" then .error s!"MS bundle {key} component missing meta"
    else
      let comp_id := lastSeg c.href
      let fetched : Except String MsItem :=
        if c.typ = "product" then .ok (cat.getProduct comp_id)
        else if c.typ = "variant" then .ok (cat.getVariant comp_id)
        else
          let t := c.typ
          .error s!"MS bundle {key} component type not supported: {t}"
      match fetched with
      | .error e => .error e
      | .ok comp_full =>
        match ms_default_sale_price comp_full with
        | none => .error s!"MS component {comp_id} has no salePrices"
        | some price =>
          let qn : Int := c.quantity.getD 1
          match resolveComponents cat key rest with
          | .error e => .error e
          | .ok tail => .ok (⟨meta c.href c.typ, qn, price⟩ :: tail)

/-- sync.py lines 96-179 with the cache factored out: the lookups performed
on a cache miss for the normalized key.  `get_bundle_components`
(ms_api.py lines 42-43) issues a single request with `limit = 1000`,
`offset = 0`, so the code sees `(full list).take 1000` and nothing else. -/
def pureResolve (cat : Catalog) (key : String) : Except String Rec :=
  match cat.productRow key with
  | some pid =>
    let full := cat.getProduct pid
    match ms_default_sale_price full with
    | none => .error s!"MS product {key} has no salePrices"
    | some price => .ok (.product (meta full.href "product") price key)
  | none =>
    match cat.bundleRow key with
    | some bid =>
      let bhref := cat.getBundleMeta bid
      let comps := (cat.bundleComponents bid).take 1000
      if comps = [] then .error s!"MS bundle {key} has no components"
      else
        match resolveComponents cat key comps with
        | .error e => .error e
        | .ok recs => .ok (.bundle (meta bhref "bundle") recs key)
    | none => .error s!"MS assortment not found by article={key}"

/-! ### The process-lifetime cache and resolve_assortment -/

/-- Association-list lookup with propositional key equality. -/
def look {α : Type} : List (String × α) → String → Option α
  | [], _ => none
  | p :: rest, k => if p.1 = k then some p.2 else look rest k

abbrev Cache := List (String × Rec)

/-- sync.py lines 96-179. -/
def resolve_assortment (cat : Catalog) (cache : Cache) (offer_id : String) :
    Except String Rec × Cache :=
  let key := normalize_offer_id offer_id
  match look cache key with
  | some rec => (.ok rec, cache)
  | none =>
    match pureResolve cat key with
    | .ok rec => (.ok rec, (key, rec) :: cache)
    | .error e => (.error e, cache)

/-! ### Order data (Ozon side) -/

/-- One element of `det["supplies"]`.  String fields use `""` for a missing
or falsy value (matching the `or`-chains of sync.py lines 318-323). -/
structure Supply where
  warehouse_id : Option Int
  storage_name : String
  bundle_id : String
  content_bundle_id : String
deriving DecidableEq

/-- One order detail from `/v3/supply-order/get` as read by sync_once:
`order_number` is `str(det.get("order_number") or "")`, `timeslot_from` is
`((det.get("timeslot") or {}).get("timeslot") or {}).get("from")` with `""`
for missing. -/
structure OrderDet where
  order_id : Option Int
  order_number : String
  state : String
  timeslot_from : String
  supplies : List Supply
deriving DecidableEq

/-- One item of `ozon.bundle_items_all`: `offer_id` is
`str(oi.get("offer_id") or "")`; `quantity` is the converted quantity with
`none` for an absent value (which sync.py line 349 turns into 1). -/
structure OzItem where
  offer_id : String
  quantity : Option Int
deriving DecidableEq

/-! ### Positions (sync.py lines 338-370) -/

structure Position where
  quantity : Int
  price : Int
  assortment : Meta
deriving DecidableEq

/-- sync.py lines 356-368: the line items contributed by one resolved
record at ordered quantity `qty`. -/
def positionsOfRec (r : Rec) (qty : Int) : List Position :=
  match r with
  | .product m price _ => [⟨qty, price, m⟩]
  | .bundle _ comps _ => comps.map (fun c => ⟨qty * c.qty, c.price, c.meta⟩)

/-- sync.py lines 338-370: build the MS positions from the Ozon bundle
items, accumulating per-item resolution errors; items with a falsy offer_id
are passed over (line 344-345). -/
def buildPositions (cat : Catalog) (cache : Cache) :
    List OzItem → List Position × List String × Cache
  | [] => ([], [], cache)
  | oi :: rest =>
    if oi.offer_id = "" then buildPositions cat cache rest
    else
      let qty : Int := oi.quantity.getD 1
      match resolve_assortment cat cache oi.offer_id with
      | (.error err, cache') =>
        let r := buildPositions cat cache' rest
        let oid := oi.offer_id
        (r.1, s!"{oid}: {err}" :: r.2.1, r.2.2)
      | (.ok rec, cache') =>
        let r := buildPositions cat cache' rest
        (positionsOfRec rec qty ++ r.1, r.2.1, r.2.2)

/-! ### Configuration (config.py lines 57-78) -/

/-- config.py lines 57-78, with the Path fields as plain strings. -/
structure FboConfig where
  dry_run : Bool
  log_level : String
  poll_seconds : Int
  ms_org_id : String
  ms_agent_id : String
  ms_store_id : String
  ms_sales_channel_id : String
  ms_state_id : String
  min_date_iso : String
  lookback_days : Int
  data_dir : String
  supplies_file : String
  assortments_file : String
deriving DecidableEq

/-- The attribute names the FboConfig dataclass defines (config.py
lines 57-78).  Python attribute access on any other name raises
AttributeError. -/
def FboConfigFields : List String :=
  ["dry_run", "log_level", "poll_seconds", "ms_org_id", "ms_agent_id",
   "ms_store_id", "ms_sales_channel_id", "ms_state_id", "min_date_iso",
   "lookback_days", "data_dir", "supplies_file", "assortments_file"]

/-- The attribute names the MsApi class defines (ms_api.py lines 12-43).
Python attribute access on any other name raises AttributeError. -/
def MsApiAttrs : List String :=
  ["c", "find_customerorder_by_name", "create_customerorder",
   "search_product_by_article", "search_bundle_by_article",
   "get_product", "get_bundle", "get_bundle_components"]

/-- Modelled from the spec: sync.py lines 423-425 read
`cfg.ms_move_source_store_id`, `cfg.ms_move_target_store_id` and
`cfg.ms_move_state_id`, none of which FboConfig defines; §6 of the spec
lists "identifiers for the fixed organizational/counterparty/warehouse/state
references attached to every created document" as configuration inputs.
This structure supplies the three missing identifiers for the
spec-modelled variant of the pass. -/
structure MoveCfg where
  ms_move_source_store_id : String
  ms_move_target_store_id : String
  ms_move_state_id : String
deriving DecidableEq

/-! ### Downstream documents and world state -/

/-- A downstream document as sync_once reads it back: `id`, `meta.href` and
(for moves) the echoed `applicable` flag. -/
structure MsDoc where
  id : String
  href : String
  applicable : Option Bool
deriving DecidableEq

/-- The downstream document store: customer orders and transfer documents
("moves"), each keyed by its unique `name`. -/
structure World where
  cos : List (String × MsDoc)
  moves : List (String × MsDoc)
deriving DecidableEq

/-- ms_api.py lines 16-21: filter `name={name}`, limit 1. -/
def find_customerorder_by_name (w : World) (n : String) : Option MsDoc :=
  look w.cos n

/-- Modelled from the spec: `ms.find_move_by_name` (sync.py line 411) is not
defined on MsApi in src; §6 declares
`findDocumentByName(kind: SalesDoc|TransferDoc, name) -> Document?`. -/
def find_move_by_name (w : World) (n : String) : Option MsDoc :=
  look w.moves n

/-- Server-assigned ids, modelled deterministically from the unique
document name. -/
def mkCoDoc (n : String) : MsDoc := ⟨s!"co:{n}", s!"href:co:{n}", none⟩

/-- Server-assigned ids for created moves; the server echoes the submitted
`applicable` flag. -/
def mkMoveDoc (n : String) (app : Bool) : MsDoc :=
  ⟨s!"mv:{n}", s!"href:mv:{n}", some app⟩

/-! ### Request bodies (sync.py lines 383-394 and 418-429) -/

structure CoBody where
  name : String
  description : String
  organization : Meta
  agent : Meta
  store : Meta
  salesChannel : Meta
  state : Meta
  positions : List Position
  deliveryPlannedMoment : Option String
deriving DecidableEq

structure MoveBody where
  name : String
  description : String
  organization : Meta
  agent : Meta
  sourceStore : Meta
  targetStore : Meta
  state : Meta
  customerOrder : Meta
  positions : List Position
  applicable : Bool
deriving DecidableEq

/-! ### Sync memory (the supplies_mem dict) -/

/-- The `"ms"` / `"move"` sub-dicts of a memory entry: either the dry-run
marker `{"dry": True}` or the live reference `{id, href(, applicable)}`. -/
inductive MemRef where
  | dry
  | live (id : String) (href : String) (applicable : Option Bool)
deriving DecidableEq

structure MemEntry where
  order_number : String
  state : String
  msRef : MemRef
  moveRef : MemRef
deriving DecidableEq

abbrev Mem := List (String × MemEntry)

/-- `supplies_mem.pop(order_id, None)`. -/
def memPop : Mem → String → Mem
  | [], _ => []
  | p :: rest, k => if p.1 = k then memPop rest k else p :: memPop rest k

/-- `supplies_mem[order_id] = entry`. -/
def memSet (m : Mem) (k : String) (e : MemEntry) : Mem := (k, e) :: memPop m k

/-! ### The environment: external collaborators as deterministic functions -/

/-- Downstream write events (the only write calls sync_once makes). -/
inductive Ev where
  | createCustomerorder (body : CoBody)
  | createMove (body : MoveBody)
deriving DecidableEq

/-- The deterministic environment of one pass: the MS base url, the catalog
read side, the Ozon bundle item fetch (`bundle_items_all`, all pages
combined), ISO timestamp parsing (`none` = ValueError), the MS moment
formatter (iso_to_ms_moment), and the outcomes of the two write calls
(`none` = success, `some e` = HttpError raised by the transport). -/
structure Env where
  baseUrl : String
  cat : Catalog
  bundleItems : String → List OzItem
  parseTs : String → Option Int
  fmtMoment : String → String
  coErr : CoBody → Option HttpErr
  moveErr : MoveBody → Option HttpErr

/-! ### Pass state -/

/-- The mutable state of one reconciliation pass: the downstream store, the
supplies memory, the assortment cache, the two counters of sync.py lines
227-228, and the trace of downstream write calls attempted so far. -/
structure PassSt where
  world : World
  mem : Mem
  cache : Cache
  created : Nat
  skipped : Nat
  trace : List Ev
deriving DecidableEq

def skipOne (st : PassSt) : PassSt := { st with skipped := st.skipped + 1 }

/-! ### The per-order state machine -/

/-- sync.py lines 300-305: skip (but keep) when a memory entry exists with
an identical state and the state is READY_TO_SUPPLY. -/
def memShortCircuit (m : Mem) (order_id state : String) : Bool :=
  match look m order_id with
  | some e => e.state = state && state = "READY_TO_SUPPLY"
  | none => false

/-- Outcome of the selection stage (sync.py lines 246-305). -/
inductive SelOut where
  | skip
  | cancelSkip (order_id : String)
  | go (order_id : String)
deriving DecidableEq

/-- sync.py lines 246-305: the per-order selection checks, in source
order: missing order_id, missing order_number, cancelled state (drop the
memory entry), missing / unparseable / before-window timeslot, and the
memory short-circuit. -/
def selectOrder (env : Env) (startTs : Int) (m : Mem) (det : OrderDet) : SelOut :=
  match det.order_id with
  | none => .skip
  | some oid =>
    let order_id := toString oid
    if det.order_number = "" then .skip
    else if CANCELLED_STATES.contains det.state then .cancelSkip order_id
    else if det.timeslot_from = "" then .skip
    else
      match env.parseTs det.timeslot_from with
      | none => .skip
      | some ts =>
        if ts < startTs then .skip
        else if memShortCircuit m order_id det.state then .skip
        else .go order_id

/-- sync.py lines 313-331: destination descriptor, comment and effective
bundle id ( `s0.get("bundle_id") or ((s0.get("content") or
{}).get("bundle_id"))` ). -/
def destInfo (det : OrderDet) : String × String :=
  match det.supplies.head? with
  | none => (pyStripSet [' ', '-'] (det.order_number ++ " - "), "")
  | some s0 =>
    let dest_desc :=
      pyOrS s0.storage_name
        (match s0.warehouse_id with
         | some i => toString i
         | none => "")
    (pyStripSet [' ', '-'] (det.order_number ++ " - " ++ dest_desc),
     pyOrS s0.bundle_id s0.content_bundle_id)

/-- sync.py lines 383-394: the CustomerOrder body.  `delivery` is the raw
timeslot (always non-empty at this point, so `deliveryPlannedMoment` is
always set, line 393-394). -/
def mkCoBody (cfg : FboConfig) (env : Env) (order_number comment : String)
    (positions : List Position) (delivery : String) : CoBody :=
  let base := env.baseUrl
  let org := cfg.ms_org_id
  let agent := cfg.ms_agent_id
  let store := cfg.ms_store_id
  let sc := cfg.ms_sales_channel_id
  let stid := cfg.ms_state_id
  { name := order_number
    description := comment
    organization := meta s!"{base}/entity/organization/{org}" "organization"
    agent := meta s!"{base}/entity/counterparty/{agent}" "counterparty"
    store := meta s!"{base}/entity/store/{store}" "store"
    salesChannel := meta s!"{base}/entity/saleschannel/{sc}" "saleschannel"
    state := meta s!"{base}/entity/customerorder/metadata/states/{stid}" "state"
    positions := positions
    deliveryPlannedMoment := some (env.fmtMoment delivery) }

/-- sync.py lines 418-429: the Move body (`applicable` starts as True;
the stock retry flips it).  The three `ms_move_*` identifiers come from the
spec-modelled MoveCfg. -/
def mkMoveBody (cfg : FboConfig) (mcfg : MoveCfg) (env : Env)
    (order_number comment coId : String) (positions : List Position) : MoveBody :=
  let base := env.baseUrl
  let org := cfg.ms_org_id
  let agent := cfg.ms_agent_id
  let src := mcfg.ms_move_source_store_id
  let tgt := mcfg.ms_move_target_store_id
  let stid := mcfg.ms_move_state_id
  { name := order_number
    description := comment
    organization := meta s!"{base}/entity/organization/{org}" "organization"
    agent := meta s!"{base}/entity/counterparty/{agent}" "counterparty"
    sourceStore := meta s!"{base}/entity/store/{src}" "store"
    targetStore := meta s!"{base}/entity/store/{tgt}" "store"
    state := meta s!"{base}/entity/move/metadata/states/{stid}" "state"
    customerOrder := meta s!"{base}/entity/customerorder/{coId}" "customerorder"
    positions := positions
    applicable := true }

/-- sync.py lines 405-463: the transfer-document stage.  The collaborators
`find_move_by_name` / `create_move` are Modelled from the spec (§6 ERPSink:
`findDocumentByName(TransferDoc, name)`,
`createTransferDocument(fields, linkedSalesDocRef, binding)`): MsApi in src
defines neither.  If the move already exists the order is forgotten
(lines 411-416); otherwise the body is built (418-429), the dry-run branch
records a dry memory entry (431-440), and a live create classifies any
HttpError as name-conflict (forget), stock (one retry with
`applicable = False`), or unclassified (re-raise) (442-456); on success the
memory entry is written (458-463). -/
def moveStage (cfg : FboConfig) (mcfg : MoveCfg) (env : Env)
    (order_id order_number state comment : String) (co : MsDoc)
    (positions : List Position) (st : PassSt) : PassSt × Option HttpErr :=
  match find_move_by_name st.world order_number with
  | some _ =>
    ({ st with mem := memPop st.mem order_id, skipped := st.skipped + 1 }, none)
  | none =>
    let mb := mkMoveBody cfg mcfg env order_number comment co.id positions
    if cfg.dry_run then
      ({ st with
          mem := memSet st.mem order_id ⟨order_number, state, .dry, .dry⟩,
          skipped := st.skipped + 1 }, none)
    else
      match env.moveErr mb with
      | none =>
        let mv := mkMoveDoc order_number true
        ({ st with
            world := { st.world with moves := (order_number, mv) :: st.world.moves },
            trace := st.trace ++ [.createMove mb],
            mem := memSet st.mem order_id
              ⟨order_number, state, .live co.id co.href none,
               .live mv.id mv.href mv.applicable⟩ }, none)
      | some e =>
        if _is_name_conflict e then
          ({ st with
              trace := st.trace ++ [.createMove mb],
              mem := memPop st.mem order_id,
              skipped := st.skipped + 1 }, none)
        else if _is_stock_error e then
          let mb2 := { mb with applicable := false }
          match env.moveErr mb2 with
          | none =>
            let mv := mkMoveDoc order_number false
            ({ st with
                world := { st.world with moves := (order_number, mv) :: st.world.moves },
                trace := st.trace ++ [.createMove mb, .createMove mb2],
                mem := memSet st.mem order_id
                  ⟨order_number, state, .live co.id co.href none,
                   .live mv.id mv.href mv.applicable⟩ }, none)
          | some e2 =>
            ({ st with trace := st.trace ++ [.createMove mb, .createMove mb2] }, some e2)
        else
          ({ st with trace := st.trace ++ [.createMove mb] }, some e)

/-- sync.py lines 377-403: reuse the existing CustomerOrder, or create it
(live: an HttpError from the transport propagates uncaught; dry-run: the
placeholder `{"id": "DRY", "meta": {"href": "DRY"}}` is used, line 399),
then continue to the transfer-document stage.  Generic in the error type
`E` and in the transfer stage `mvStage`, so that both the spec-modelled and
the as-written ("actual") variants share one pipeline. -/
def coStageG {E : Type} (liftE : HttpErr → E)
    (mvStage : String → String → String → String → MsDoc → List Position →
      PassSt → PassSt × Option E)
    (cfg : FboConfig) (env : Env)
    (order_id order_number state comment timeslot : String)
    (existing : Option MsDoc) (positions : List Position) (st : PassSt) :
    PassSt × Option E :=
  match existing with
  | some co => mvStage order_id order_number state comment co positions st
  | none =>
    if cfg.dry_run then
      mvStage order_id order_number state comment ⟨"DRY", "DRY", none⟩ positions st
    else
      let cb := mkCoBody cfg env order_number comment positions timeslot
      match env.coErr cb with
      | some e =>
        ({ st with trace := st.trace ++ [.createCustomerorder cb] }, some (liftE e))
      | none =>
        let co := mkCoDoc order_number
        mvStage order_id order_number state comment co positions
          { st with
              world := { st.world with cos := (order_number, co) :: st.world.cos },
              created := st.created + 1,
              trace := st.trace ++ [.createCustomerorder cb] }

/-- sync.py lines 246-463: processing of one order detail.  (The defensive
`if co is None` of lines 406-408 is unreachable: every branch that reaches
the move stage carries a document.) -/
def processOrderG {E : Type} (liftE : HttpErr → E)
    (mvStage : String → String → String → String → MsDoc → List Position →
      PassSt → PassSt × Option E)
    (cfg : FboConfig) (env : Env) (startTs : Int)
    (det : OrderDet) (st : PassSt) : PassSt × Option E :=
  match selectOrder env startTs st.mem det with
  | .skip => (skipOne st, none)
  | .cancelSkip order_id =>
    ({ st with mem := memPop st.mem order_id, skipped := st.skipped + 1 }, none)
  | .go order_id =>
    let existing := find_customerorder_by_name st.world det.order_number
    let info := destInfo det
    let comment := info.1
    let bundle_id := info.2
    if bundle_id = "" then (skipOne st, none)
    else
      let oz_items := env.bundleItems bundle_id
      let r := buildPositions env.cat st.cache oz_items
      let st1 : PassSt := { st with cache := r.2.2 }
      match r.2.1 with
      | _ :: _ => (skipOne st1, none)
      | [] =>
        coStageG liftE mvStage cfg env order_id det.order_number det.state
          comment det.timeslot_from existing r.1 st1

/-- The spec-modelled per-order processing (move collaborators per §6). -/
def processOrder (cfg : FboConfig) (mcfg : MoveCfg) (env : Env) (startTs : Int)
    (det : OrderDet) (st : PassSt) : PassSt × Option HttpErr :=
  processOrderG id (moveStage cfg mcfg env) cfg env startTs det st

/-- The order loop of sync_once (lines 240-463): orders processed strictly
sequentially; an uncaught exception aborts the pass (the remaining orders
are not processed), with the in-place mutations made so far retained. -/
def runPassCore (cfg : FboConfig) (mcfg : MoveCfg) (env : Env) (startTs : Int) :
    List OrderDet → PassSt → PassSt × Option HttpErr
  | [], st => (st, none)
  | det :: rest, st =>
    match processOrder cfg mcfg env startTs det st with
    | (st', none) => runPassCore cfg mcfg env startTs rest st'
    | (st', some e) => (st', some e)

/-- sync.py lines 182-465: one reconciliation pass over the fetched order
details, starting with zero created/skipped counters (lines 227-228).
Returns the final state (counters, downstream store, memory, cache, write
trace) and, when an exception escaped, the error. -/
def runPass (cfg : FboConfig) (mcfg : MoveCfg) (env : Env) (startTs : Int)
    (orders : List OrderDet) (w : World) (m : Mem) (a : Cache) :
    PassSt × Option HttpErr :=
  runPassCore cfg mcfg env startTs orders ⟨w, m, a, 0, 0, []⟩

/-! ### The as-written ("actual") variant: the move stage against the MsApi
and FboConfig that src actually defines -/

/-- Python-level errors: an HttpError, or an AttributeError from looking up
an attribute a class does not define. -/
inductive PyErr where
  | http (e : HttpErr)
  | attributeError (obj attr : String)
deriving DecidableEq

/-- Python attribute lookup on an MsApi instance. -/
def msGetattr (attr : String) : Except PyErr Unit :=
  if MsApiAttrs.contains attr then .ok () else .error (.attributeError "MsApi" attr)

/-- sync.py lines 405-456 executed against the MsApi actually defined in
src: the first operation of the stage is the attribute lookup
`ms.find_move_by_name` (line 411), which precedes the body construction of
lines 418-429 (and its `cfg.ms_move_*` reads) and the dry-run branch of
line 431.  `k` is the (never-consulted) continuation that would run if the
attribute existed; the stage is stated for every `k`, so nothing about the
missing code is assumed. -/
def moveStageActual (k : PassSt → PassSt × Option PyErr)
    (_order_id _order_number _state _comment : String) (_co : MsDoc)
    (_positions : List Position) (st : PassSt) : PassSt × Option PyErr :=
  match msGetattr "find_move_by_name" with
  | .error e => (st, some e)
  | .ok _ => k st

/-- Per-order processing as written in src (shared pipeline, actual move
stage). -/
def processOrderActual (k : PassSt → PassSt × Option PyErr)
    (cfg : FboConfig) (env : Env) (startTs : Int)
    (det : OrderDet) (st : PassSt) : PassSt × Option PyErr :=
  processOrderG PyErr.http (moveStageActual k) cfg env startTs det st

/-- The order loop as written in src. -/
def runPassActualCore (k : PassSt → PassSt × Option PyErr)
    (cfg : FboConfig) (env : Env) (startTs : Int) :
    List OrderDet → PassSt → PassSt × Option PyErr
  | [], st => (st, none)
  | det :: rest, st =>
    match processOrderActual k cfg env startTs det st with
    | (st', none) => runPassActualCore k cfg env startTs rest st'
    | (st', some e) => (st', some e)

/-- One pass as written in src. -/
def runPassActual (k : PassSt → PassSt × Option PyErr)
    (cfg : FboConfig) (env : Env) (startTs : Int)
    (orders : List OrderDet) (w : World) (m : Mem) (a : Cache) :
    PassSt × Option PyErr :=
  runPassActualCore k cfg env startTs orders ⟨w, m, a, 0, 0, []⟩

/-- The transfer-document creations recorded in a trace. -/
def moveEvs (t : List Ev) : List MoveBody :=
  t.filterMap (fun e => match e with | .createMove b => some b | _ => none)

/-- The sales-document creations recorded in a trace. -/
def coEvs (t : List Ev) : List CoBody :=
  t.filterMap (fun e => match e with | .createCustomerorder b => some b | _ => none)

/-! ### Concrete fixtures for witnesses and counterexamples -/

/-- A catalog holding one priced product under article `ITEM-1`. -/
def wCat : Catalog :=
  { productRow := fun a => if a = "ITEM-1" then some "p1" else none
    bundleRow := fun _ => none
    getProduct := fun _ => ⟨"h1", [⟨some "Цена продажи", some 100⟩]⟩
    getVariant := fun _ => ⟨"hv", []⟩
    getBundleMeta := fun _ => "hb"
    bundleComponents := fun _ => [] }

/-- An all-success environment over `wCat`. -/
def wEnv : Env :=
  { baseUrl := "B"
    cat := wCat
    bundleItems := fun _ => [⟨"ITEM-1", some 2⟩]
    parseTs := fun _ => some 100
    fmtMoment := fun s => s
    coErr := fun _ => none
    moveErr := fun _ => none }

def wCfg : FboConfig :=
  ⟨false, "INFO", 80, "O", "A", "S", "SC", "ST", "2026-02-02", 20, "d", "s", "a"⟩

def wCfgDry : FboConfig := { wCfg with dry_run := true }

def wMoveCfg : MoveCfg := ⟨"SRC", "TGT", "MST"⟩

/-- A candidate order that passes every selection check. -/
def wDet : OrderDet :=
  ⟨some 1, "N1", "READY_TO_SUPPLY", "2026-03-01T10:00:00Z", [⟨some 7, "WH", "B1", ""⟩]⟩

/-- A second candidate order (distinct id and number). -/
def wDet2 : OrderDet :=
  ⟨some 2, "N2", "READY_TO_SUPPLY", "2026-03-01T11:00:00Z", [⟨some 7, "WH", "B1", ""⟩]⟩

def wSt0 : PassSt := ⟨⟨[], []⟩, [], [], 0, 0, []⟩

/-- An unclassified write error: status 500, body matching no classifier
needle. -/
def wBoom : HttpErr := ⟨500, some "boom"⟩

/-- A stock-insufficiency error: status 400, body mentioning insufficient
stock (matches `_is_stock_error`, not `_is_name_conflict`). -/
def wStockErr : HttpErr := ⟨400, some "недостаточно остатков"⟩

/-- An environment whose move creation always fails with `wBoom`. -/
def wEnvBoom : Env := { wEnv with moveErr := fun _ => some wBoom }

/-- An environment whose binding move creation fails with a stock error and
whose non-binding retry succeeds. -/
def wEnvStock : Env :=
  { wEnv with moveErr := fun b => if b.applicable then some wStockErr else none }

/-- An environment whose move creation fails with a stock error for the
binding attempt and with `wBoom` for the non-binding retry. -/
def wEnvStockBoom : Env :=
  { wEnv with moveErr := fun b => if b.applicable then some wStockErr else some wBoom }

/-- The catalog of the pagination counterexample: bundle `K` has 1001
identical components server-side. -/
def wRow1001 : CompRow := ⟨"/entity/product/pc", "product", some 1⟩

def wCat1001 : Catalog :=
  { productRow := fun _ => none
    bundleRow := fun a => if a = "K" then some "B" else none
    getProduct := fun _ => ⟨"hp", [⟨some "Цена продажи", some 7⟩]⟩
    getVariant := fun _ => ⟨"hv", []⟩
    getBundleMeta := fun _ => "hB"
    bundleComponents := fun b => if b = "B" then List.replicate 1001 wRow1001 else [] }

def wRec1001 : CompRec := ⟨meta "/entity/product/pc" "product", 1, 7⟩

/-! ### Notions used by the idempotence analysis -/

/-- The memory key of an order (`str(order_id)`), when the order has an
id. -/
def keyOf (det : OrderDet) : Option String := det.order_id.map (fun i => toString i)

/-- Cache `b` extends cache `a` conservatively: every key either has the
same lookup in both, or is absent from `a` and bound in `b` to the record a
fresh resolution against the (fixed) catalog would produce.  This is the
invariant the pass maintains on the assortment cache: entries are never
overwritten, and new entries come from fresh resolution. -/
def GoodExt (cat : Catalog) (a b : Cache) : Prop :=
  ∀ k, look b k = look a k
    ∨ (look a k = none ∧ ∃ r, look b k = some r ∧ pureResolve cat k = .ok r)

/-- The positions an order resolves to against a given cache. -/
def posOf (env : Env) (a : Cache) (det : OrderDet) : List Position :=
  (buildPositions env.cat a (env.bundleItems (destInfo det).2)).1

/-- The resolution errors an order produces against a given cache. -/
def errsOf (env : Env) (a : Cache) (det : OrderDet) : List String :=
  (buildPositions env.cat a (env.bundleItems (destInfo det).2)).2.1

/-- After a completed pass, every processed order is settled with respect to
the final state `(w, m, a)`: re-processing it cannot reach the
customer-order creation, because (1) selection would not pass it through,
or (2) it fails resolution, or (3) the pass is a dry run, or (4) its
customer order is present downstream and the transfer-document stage ends
in forget-or-replayed-conflict. -/
def Settled (cfg : FboConfig) (mcfg : MoveCfg) (env : Env) (startTs : Int)
    (det : OrderDet) (w : World) (m : Mem) (a : Cache) : Prop :=
  (∀ oid, selectOrder env startTs m det ≠ .go oid)
  ∨ ((destInfo det).2 = "" ∨ errsOf env a det ≠ [])
  ∨ cfg.dry_run = true
  ∨ (∃ co, look w.cos det.order_number = some co ∧
      ((∃ mv, look w.moves det.order_number = some mv)
       ∨ (look w.moves det.order_number = none ∧
          ∃ e, env.moveErr (mkMoveBody cfg mcfg env det.order_number
                 (destInfo det).1 co.id (posOf env a det)) = some e ∧
               _is_name_conflict e = true)))

/-! ## Theorems -/

/-! ### Price policy helper lemmas -/

lemma firstLabeled_of_none (l : List SalePriceEntry)
    (h : ∀ p ∈ l, p.priceTypeName ≠ some defaultSalePriceName) :
    firstLabeled l = none := by
  induction l with
  | nil => rfl
  | cons p ps ih =>
    have hp := h p (List.mem_cons_self p ps)
    simp only [firstLabeled, if_neg hp]
    exact ih (fun q hq => h q (List.mem_cons_of_mem p hq))

lemma firstLabeled_append (l1 : List SalePriceEntry) (p : SalePriceEntry)
    (l2 : List SalePriceEntry)
    (h1 : ∀ q ∈ l1, q.priceTypeName ≠ some defaultSalePriceName)
    (hp : p.priceTypeName = some defaultSalePriceName) :
    firstLabeled (l1 ++ p :: l2) = some p := by
  induction l1 with
  | nil => simp [firstLabeled, hp]
  | cons q qs ih =>
    have hq := h1 q (List.mem_cons_self q qs)
    simp only [List.cons_append, firstLabeled, if_neg hq]
    exact ih (fun r hr => h1 r (List.mem_cons_of_mem q hr))

/-- C8: the resolved unit price is the value of the price-list entry whose
label equals the default sale-price label exactly (sync.py line 83, the
first such entry); with no such entry it is the value of the first
price-list entry present; with no entries at all it is `none`, which the
resolution turns into the no-price error (sync.py lines 117-118). -/
theorem sale_price_policy (it : MsItem) (cat : Catalog) (key pid : String) :
    (it.salePrices = [] → ms_default_sale_price it = none)
    ∧ (∀ l1 p l2, it.salePrices = l1 ++ p :: l2 →
        p.priceTypeName = some defaultSalePriceName →
        (∀ q ∈ l1, q.priceTypeName ≠ some defaultSalePriceName) →
        ms_default_sale_price it = p.value)
    ∧ (∀ p rest, it.salePrices = p :: rest →
        (∀ q ∈ it.salePrices, q.priceTypeName ≠ some defaultSalePriceName) →
        ms_default_sale_price it = p.value)
    ∧ (cat.productRow key = some pid →
        ms_default_sale_price (cat.getProduct pid) = none →
        pureResolve cat key = .error s!"MS product {key} has no salePrices") := by
  refine ⟨?_, ?_, ?_, ?_⟩
  · intro h
    simp [ms_default_sale_price, h, firstLabeled]
  · intro l1 p l2 hsp hp h1
    simp [ms_default_sale_price, hsp, firstLabeled_append l1 p l2 h1 hp]
  · intro p rest hsp h
    rw [hsp] at h
    simp [ms_default_sale_price, hsp, firstLabeled_of_none (p :: rest) h]
  · intro hrow hnone
    simp [pureResolve, hrow, hnone]

/-- Witness for C8 at a concrete item: an unlabeled entry first, the
labeled entry (value 42) second, so the labeled entry wins over the first
entry. -/
theorem sale_price_policy_witness :
    ms_default_sale_price ⟨"h", [⟨some "Другая", some 9⟩, ⟨some "Цена продажи", some 42⟩]⟩ =
      some 42 := by
  have h := (sale_price_policy ⟨"h", [⟨some "Другая", some 9⟩, ⟨some "Цена продажи", some 42⟩]⟩
    wCat "k" "p").2.1 [⟨some "Другая", some 9⟩] ⟨some "Цена продажи", some 42⟩ []
    rfl rfl (by decide)
  exact h

/-! ### Bundle expansion (C7) -/

/-- C7: an order line of quantity `q` for a bundle whose cached record has
components `(ref_i, qty_i, price_i)` expands to exactly one position
`(ref_i, q * qty_i, price_i)` per component, in component order
(sync.py lines 362-368). -/
theorem bundle_expansion (cat : Catalog) (cache : Cache) (oi : OzItem)
    (q : Int) (m : Meta) (comps : List CompRec) (art : String)
    (hne : oi.offer_id ≠ "")
    (hq : oi.quantity = some q)
    (hc : look cache (normalize_offer_id oi.offer_id) = some (.bundle m comps art)) :
    buildPositions cat cache [oi] =
      (comps.map (fun c => ⟨q * c.qty, c.price, c.meta⟩), [], cache) := by
  simp [buildPositions, resolve_assortment, hne, hq, hc, positionsOfRec]

/-- Witness for C7: the spec's example — bundle components
`(A, qty=2, price=100)` and `(B, qty=1, price=50)`, ordered quantity 3,
expands to `(A, 6, 100)` and `(B, 3, 50)`. -/
theorem bundle_expansion_witness :
    buildPositions wCat
      [("BND-1", .bundle (meta "hb" "bundle")
          [⟨meta "A" "product", 2, 100⟩, ⟨meta "B" "product", 1, 50⟩] "BND-1")]
      [⟨"BND-1", some 3⟩] =
      ([⟨6, 100, meta "A" "product"⟩, ⟨3, 50, meta "B" "product"⟩], [],
       [("BND-1", .bundle (meta "hb" "bundle")
          [⟨meta "A" "product", 2, 100⟩, ⟨meta "B" "product", 1, 50⟩] "BND-1")]) := by
  have h := bundle_expansion wCat
    [("BND-1", .bundle (meta "hb" "bundle")
        [⟨meta "A" "product", 2, 100⟩, ⟨meta "B" "product", 1, 50⟩] "BND-1")]
    ⟨"BND-1", some 3⟩ 3 (meta "hb" "bundle")
    [⟨meta "A" "product", 2, 100⟩, ⟨meta "B" "product", 1, 50⟩] "BND-1"
    (by decide) rfl (by decide)
  simpa using h

/-! ### Missing offer id is silently dropped (C10) -/

/-- C10: an order item whose offer id is missing or empty contributes no
position and no resolution error — the whole position build is as if the
item were absent (sync.py lines 344-345), so the order is not skipped for
it and the documents carry fewer line items than the order has items. -/
theorem empty_offer_dropped (cat : Catalog) (cache : Cache) (oi : OzItem)
    (rest : List OzItem) (h : oi.offer_id = "") :
    buildPositions cat cache (oi :: rest) = buildPositions cat cache rest := by
  simp [buildPositions, h]

/-- Witness for C10: a two-item order whose first item lacks an offer id
yields a single position and no errors — fewer line items than order
items. -/
theorem empty_offer_dropped_witness :
    buildPositions wCat [] [⟨"", some 5⟩, ⟨"ITEM-1", some 2⟩] =
      buildPositions wCat [] [⟨"ITEM-1", some 2⟩]
    ∧ (buildPositions wCat [] [⟨"", some 5⟩, ⟨"ITEM-1", some 2⟩]).1.length = 1
    ∧ ([(⟨"", some 5⟩ : OzItem), ⟨"ITEM-1", some 2⟩].length = 2) := by
  refine ⟨empty_offer_dropped wCat [] ⟨"", some 5⟩ [⟨"ITEM-1", some 2⟩] rfl, ?_, rfl⟩
  rw [empty_offer_dropped wCat [] ⟨"", some 5⟩ [⟨"ITEM-1", some 2⟩] rfl]
  decide

/-! ### Component pagination (C9) -/

lemma resolveComponents_length (cat : Catalog) (key : String) :
    ∀ l recs, resolveComponents cat key l = .ok recs → recs.length = l.length := by
  intro l
  induction l with
  | nil => intro recs h; simp [resolveComponents] at h; simp [← h]
  | cons c rest ih =>
    intro recs h
    simp only [resolveComponents] at h
    by_cases hcm : c.href = "" ∨ c.typ = ""
    · rw [if_pos hcm] at h; exact absurd h (by simp)
    · rw [if_neg hcm] at h
      by_cases hp : c.typ = "product"
      · simp only [if_pos hp] at h
        cases hms : ms_default_sale_price (cat.getProduct (lastSeg c.href)) with
        | none => rw [hms] at h; exact absurd h (by simp)
        | some price =>
          rw [hms] at h
          cases htail : resolveComponents cat key rest with
          | error e => rw [htail] at h; exact absurd h (by simp)
          | ok tail =>
            rw [htail] at h
            simp only [Except.ok.injEq] at h
            rw [← h]
            simp [ih tail htail]
      · by_cases hv : c.typ = "variant"
        · simp only [if_neg hp, if_pos hv] at h
          cases hms : ms_default_sale_price (cat.getVariant (lastSeg c.href)) with
          | none => rw [hms] at h; exact absurd h (by simp)
          | some price =>
            rw [hms] at h
            cases htail : resolveComponents cat key rest with
            | error e => rw [htail] at h; exact absurd h (by simp)
            | ok tail =>
              rw [htail] at h
              simp only [Except.ok.injEq] at h
              rw [← h]
              simp [ih tail htail]
        · simp [if_neg hp, if_neg hv] at h

lemma resolveComponents_replicate (n : Nat) :
    resolveComponents wCat1001 "K" (List.replicate n wRow1001) =
      .ok (List.replicate n wRec1001) := by
  induction n with
  | zero => rfl
  | succ k ih =>
    rw [List.replicate_succ, List.replicate_succ]
    simp only [resolveComponents, ih]
    rfl

/-- Counterexample to C9: bundle `K` has 1001 components server-side, yet
resolution succeeds with only the first 1000 — the component list is
fetched with a single limit-1000 request, a truncated list is not detected,
and the partial expansion is not a failure. -/
theorem components_pagination_counterexample :
    pureResolve wCat1001 "K" =
      .ok (.bundle (meta "hB" "bundle") (List.replicate 1000 wRec1001) "K")
    ∧ (wCat1001.bundleComponents "B").length = 1001
    ∧ ((List.replicate 1000 wRec1001).length ≠ (wCat1001.bundleComponents "B").length) := by
  have hres := resolveComponents_replicate 1000
  have htake : (wCat1001.bundleComponents "B").take 1000 = List.replicate 1000 wRow1001 := by
    show (List.replicate 1001 wRow1001).take 1000 = _
    rw [List.take_replicate]
    norm_num
  have hlen : (wCat1001.bundleComponents "B").length = 1001 := by
    show (List.replicate 1001 wRow1001).length = 1001
    rw [List.length_replicate]
  refine ⟨?_, hlen, by rw [List.length_replicate, hlen]; decide⟩
  have hrow : wCat1001.productRow "K" = none := rfl
  have hb : wCat1001.bundleRow "K" = some "B" := rfl
  simp only [pureResolve, hrow, hb, htake, hres]
  rw [if_neg (by simp)]
  rfl

/-- C9 (amended): the bundle component list is retrieved with a single
request (`limit = 1000`, `offset = 0`, ms_api.py line 43), so resolution
sees exactly the first 1000 server-side components; an empty retrieved list
is a hard failure, but a list truncated at 1000 is silently expanded. -/
theorem components_single_page (cat : Catalog) (key bid : String)
    (hp : cat.productRow key = none)
    (hb : cat.bundleRow key = some bid) :
    ((cat.bundleComponents bid).take 1000 = [] →
      pureResolve cat key = .error s!"MS bundle {key} has no components")
    ∧ (∀ m recs art, pureResolve cat key = .ok (.bundle m recs art) →
        recs.length = ((cat.bundleComponents bid).take 1000).length
        ∧ recs.length ≤ 1000) := by
  constructor
  · intro h
    simp [pureResolve, hp, hb, h]
  · intro m recs art h
    simp only [pureResolve, hp, hb] at h
    by_cases he : (cat.bundleComponents bid).take 1000 = []
    · rw [if_pos he] at h; exact absurd h (by simp)
    · rw [if_neg he] at h
      cases hrc : resolveComponents cat key ((cat.bundleComponents bid).take 1000) with
      | error e => rw [hrc] at h; exact absurd h (by simp)
      | ok recs' =>
        rw [hrc] at h
        simp only [Except.ok.injEq, Rec.bundle.injEq] at h
        have hlen := resolveComponents_length cat key _ recs' hrc
        rw [← h.2.1]
        refine ⟨hlen, ?_⟩
        rw [hlen, List.length_take]
        exact Nat.min_le_left _ _

/-- Witness for C9 (amended) at bundle `K` of the concrete catalog. -/
theorem components_single_page_witness :
    (List.replicate 1000 wRec1001).length =
      ((wCat1001.bundleComponents "B").take 1000).length
    ∧ (List.replicate 1000 wRec1001).length ≤ 1000 := by
  have h := (components_single_page wCat1001 "K" "B" rfl rfl).2
    (meta "hB" "bundle") (List.replicate 1000 wRec1001) "K"
  refine h ?_
  have hres := resolveComponents_replicate 1000
  have htake : (wCat1001.bundleComponents "B").take 1000 = List.replicate 1000 wRow1001 := by
    show (List.replicate 1001 wRow1001).take 1000 = _
    rw [List.take_replicate]
    norm_num
  have hrow : wCat1001.productRow "K" = none := rfl
  have hb : wCat1001.bundleRow "K" = some "B" := rfl
  simp only [pureResolve, hrow, hb, htake, hres]
  rw [if_neg (by simp)]
  rfl

/-! ### The move stage as written (C1) -/

lemma moveStageActual_eq (k : PassSt → PassSt × Option PyErr)
    (a b c d : String) (co : MsDoc) (ps : List Position) (st : PassSt) :
    moveStageActual k a b c d co ps st =
      (st, some (.attributeError "MsApi" "find_move_by_name")) := by
  have h : ¬ ("find_move_by_name" ∈ MsApiAttrs) := by decide
  simp [moveStageActual, msGetattr, h]

lemma moveEvs_append (a b : List Ev) : moveEvs (a ++ b) = moveEvs a ++ moveEvs b := by
  simp [moveEvs]

/-- Every branch of the as-written per-order processing appends at most a
customer-order creation to the trace: no transfer-document creation is ever
recorded. -/
lemma processOrderActual_trace (k : PassSt → PassSt × Option PyErr)
    (cfg : FboConfig) (env : Env) (t : Int) (det : OrderDet) (st : PassSt) :
    moveEvs ((processOrderActual k cfg env t det st).1.trace) = moveEvs st.trace := by
  unfold processOrderActual processOrderG
  cases hsel : selectOrder env t st.mem det with
  | skip => simp [skipOne]
  | cancelSkip oid => simp
  | go oid =>
    dsimp only
    by_cases hb : (destInfo det).2 = ""
    · simp [hb, skipOne]
    · rw [if_neg hb]
      cases herr : (buildPositions env.cat st.cache
          (env.bundleItems (destInfo det).2)).2.1 with
      | cons e es => simp [skipOne]
      | nil =>
        dsimp only
        unfold coStageG
        cases hex : find_customerorder_by_name st.world det.order_number with
        | some co => dsimp only; rw [moveStageActual_eq]
        | none =>
          dsimp only
          by_cases hd : cfg.dry_run = true
          · rw [if_pos hd, moveStageActual_eq]
          · rw [if_neg hd]
            cases hco : env.coErr (mkCoBody cfg env det.order_number (destInfo det).1
                (buildPositions env.cat st.cache (env.bundleItems (destInfo det).2)).1
                det.timeslot_from) with
            | some e => dsimp only; simp [moveEvs_append, moveEvs]
            | none => dsimp only; rw [moveStageActual_eq]; simp [moveEvs_append, moveEvs]

lemma runPassActualCore_trace (k : PassSt → PassSt × Option PyErr)
    (cfg : FboConfig) (env : Env) (t : Int) :
    ∀ (orders : List OrderDet) (st : PassSt),
      moveEvs ((runPassActualCore k cfg env t orders st).1.trace) = moveEvs st.trace := by
  intro orders
  induction orders with
  | nil => intro st; rfl
  | cons det rest ih =>
    intro st
    have hpt := processOrderActual_trace k cfg env t det st
    unfold runPassActualCore
    cases hpo : processOrderActual k cfg env t det st with
    | mk st2 err =>
      rw [hpo] at hpt
      cases err with
      | none => dsimp only; rw [ih st2]; exact hpt
      | some e => exact hpt

/-- C1: every order that reaches the transfer-document stage of sync_once
makes the pass fail rather than create a transfer document.  MsApi defines
neither `find_move_by_name` nor `create_move` and FboConfig defines none of
`ms_move_source_store_id` / `ms_move_target_store_id` / `ms_move_state_id`;
the attribute lookup `ms.find_move_by_name` (sync.py line 411) raises
AttributeError before the dry-run branch of line 431, for every
continuation `k` of the missing code, so the per-order processing errors,
the pass aborts with that error, and no run of the as-written program
records a transfer-document creation. -/
theorem move_stage_attribute_error (k : PassSt → PassSt × Option PyErr)
    (cfg : FboConfig) (env : Env) (startTs : Int) (det : OrderDet)
    (st : PassSt) (order_id : String) (rest : List OrderDet)
    (h2 : selectOrder env startTs st.mem det = .go order_id)
    (h3 : (destInfo det).2 ≠ "")
    (h4 : (buildPositions env.cat st.cache (env.bundleItems (destInfo det).2)).2.1 = [])
    (h5 : (find_customerorder_by_name st.world det.order_number).isSome = true
        ∨ cfg.dry_run = true
        ∨ env.coErr (mkCoBody cfg env det.order_number (destInfo det).1
            (buildPositions env.cat st.cache (env.bundleItems (destInfo det).2)).1
            det.timeslot_from) = none) :
    ¬ ("find_move_by_name" ∈ MsApiAttrs)
    ∧ ¬ ("create_move" ∈ MsApiAttrs)
    ∧ ¬ ("ms_move_source_store_id" ∈ FboConfigFields)
    ∧ ¬ ("ms_move_target_store_id" ∈ FboConfigFields)
    ∧ ¬ ("ms_move_state_id" ∈ FboConfigFields)
    ∧ (processOrderActual k cfg env startTs det st).2 =
        some (.attributeError "MsApi" "find_move_by_name")
    ∧ (runPassActualCore k cfg env startTs (det :: rest) st).2 =
        some (.attributeError "MsApi" "find_move_by_name")
    ∧ (∀ (k2 : PassSt → PassSt × Option PyErr) (cfg2 : FboConfig) (env2 : Env)
        (t2 : Int) (orders : List OrderDet) (w : World) (m : Mem) (a : Cache),
        moveEvs ((runPassActual k2 cfg2 env2 t2 orders w m a).1.trace) = []) := by
  have hpo : (processOrderActual k cfg env startTs det st).2 =
      some (.attributeError "MsApi" "find_move_by_name") := by
    unfold processOrderActual processOrderG
    rw [h2]
    dsimp only
    rw [if_neg h3]
    rw [h4]
    dsimp only
    unfold coStageG
    cases hex : find_customerorder_by_name st.world det.order_number with
    | some co => dsimp only; rw [moveStageActual_eq]
    | none =>
      dsimp only
      by_cases hd : cfg.dry_run = true
      · rw [if_pos hd, moveStageActual_eq]
      · rw [if_neg hd]
        rcases h5 with h5 | h5 | h5
        · rw [hex] at h5; exact absurd h5 (by simp)
        · exact absurd h5 hd
        · rw [h5, moveStageActual_eq]
  refine ⟨by decide, by decide, by decide, by decide, by decide, hpo, ?_, ?_⟩
  · unfold runPassActualCore
    cases hp : processOrderActual k cfg env startTs det st with
    | mk st2 err =>
      rw [hp] at hpo
      simp only at hpo
      rw [hpo]
  · intro k2 cfg2 env2 t2 orders w m a
    unfold runPassActual
    rw [runPassActualCore_trace]
    rfl

/-- Witness for C1: a fully concrete candidate order reaches the
transfer-document stage and the as-written pass fails with
AttributeError on `find_move_by_name` (dry-run and live alike). -/
theorem move_stage_attribute_error_witness :
    (processOrderActual (fun st => (st, none)) wCfg wEnv 0 wDet wSt0).2 =
      some (.attributeError "MsApi" "find_move_by_name")
    ∧ (processOrderActual (fun st => (st, none)) wCfgDry wEnv 0 wDet wSt0).2 =
      some (.attributeError "MsApi" "find_move_by_name")
    ∧ ¬ ("find_move_by_name" ∈ MsApiAttrs) := by
  have hl := move_stage_attribute_error (fun st => (st, none)) wCfg wEnv 0 wDet wSt0
    "1" [] (by decide) (by decide) (by decide) (Or.inr (Or.inr rfl))
  have hd := move_stage_attribute_error (fun st => (st, none)) wCfgDry wEnv 0 wDet wSt0
    "1" [] (by decide) (by decide) (by decide) (Or.inr (Or.inl rfl))
  exact ⟨hl.2.2.2.2.2.1, hd.2.2.2.2.2.1, hl.1⟩

/-! ### Memory lookup lemmas -/

lemma look_memPop_self (m : Mem) (k : String) : look (memPop m k) k = none := by
  induction m with
  | nil => rfl
  | cons p rest ih =>
    by_cases h : p.1 = k <;> simp [memPop, look, h, ih]

lemma look_memPop_ne (m : Mem) (k0 k : String) (h : k ≠ k0) :
    look (memPop m k0) k = look m k := by
  induction m with
  | nil => rfl
  | cons p rest ih =>
    by_cases hp : p.1 = k0
    · simp [memPop, look, hp, ih]
      rw [if_neg (fun hc => h hc.symm)]
    · simp [memPop, look, hp, ih]

lemma look_memSet_self (m : Mem) (k : String) (e : MemEntry) :
    look (memSet m k e) k = some e := by
  simp [memSet, look]

lemma look_memSet_ne (m : Mem) (k0 k : String) (e : MemEntry) (h : k ≠ k0) :
    look (memSet m k0 e) k = look m k := by
  simp only [memSet, look]
  rw [if_neg (fun hc => h hc.symm), look_memPop_ne m k0 k h]

/-! ### Stock-error fallback (C5) -/

/-- C5: when the transfer creation fails with an error classified as stock
insufficiency (not name-conflict, per the classification order of sync.py
lines 446-451), the creation is retried exactly once with
`applicable = False` (lines 451-454): the trace gains exactly the two
creation attempts, the second non-binding, and the retry's outcome is
final — success writes the memory entry, failure propagates (line 454 is
outside any try). -/
theorem stock_error_single_retry (cfg : FboConfig) (mcfg : MoveCfg) (env : Env)
    (order_id order_number state comment : String) (co : MsDoc)
    (positions : List Position) (st : PassSt) (e : HttpErr) (mb mb2 : MoveBody)
    (hmb : mb = mkMoveBody cfg mcfg env order_number comment co.id positions)
    (hmb2 : mb2 = { mb with applicable := false })
    (hdry : cfg.dry_run = false)
    (hnf : find_move_by_name st.world order_number = none)
    (he : env.moveErr mb = some e)
    (hc : _is_name_conflict e = false)
    (hs : _is_stock_error e = true) :
    (env.moveErr mb2 = none →
      moveStage cfg mcfg env order_id order_number state comment co positions st =
        ({ st with
            world := { st.world with
              moves := (order_number, mkMoveDoc order_number false) :: st.world.moves },
            trace := st.trace ++ [.createMove mb, .createMove mb2],
            mem := memSet st.mem order_id
              ⟨order_number, state, .live co.id co.href none,
               .live (mkMoveDoc order_number false).id (mkMoveDoc order_number false).href
                 (mkMoveDoc order_number false).applicable⟩ }, none))
    ∧ (∀ e2, env.moveErr mb2 = some e2 →
      moveStage cfg mcfg env order_id order_number state comment co positions st =
        ({ st with trace := st.trace ++ [.createMove mb, .createMove mb2] }, some e2)) := by
  subst hmb
  subst hmb2
  constructor
  · intro h0
    unfold moveStage
    rw [hnf]
    dsimp only
    rw [if_neg (by rw [hdry]; exact Bool.false_ne_true)]
    rw [he]
    dsimp only
    rw [if_neg (by rw [hc]; exact Bool.false_ne_true)]
    rw [if_pos hs]
    rw [h0]
  · intro e2 h0
    unfold moveStage
    rw [hnf]
    dsimp only
    rw [if_neg (by rw [hdry]; exact Bool.false_ne_true)]
    rw [he]
    dsimp only
    rw [if_neg (by rw [hc]; exact Bool.false_ne_true)]
    rw [if_pos hs]
    rw [h0]

/-- Witness for C5: a concrete stock-classified failure (`wStockErr`), with
a succeeding non-binding retry: the order's processing succeeds after
exactly two creation attempts. -/
theorem stock_error_single_retry_witness :
    (moveStage wCfg wMoveCfg wEnvStock "1" "N1" "READY_TO_SUPPLY" "N1 - WH"
        (mkCoDoc "N1") [⟨2, 100, meta "h1" "product"⟩] wSt0).2 = none
    ∧ (moveEvs (moveStage wCfg wMoveCfg wEnvStock "1" "N1" "READY_TO_SUPPLY" "N1 - WH"
        (mkCoDoc "N1") [⟨2, 100, meta "h1" "product"⟩] wSt0).1.trace).length = 2
    ∧ _is_stock_error wStockErr = true
    ∧ _is_name_conflict wStockErr = false := by
  have h := (stock_error_single_retry wCfg wMoveCfg wEnvStock "1" "N1"
    "READY_TO_SUPPLY" "N1 - WH" (mkCoDoc "N1")
    [⟨2, 100, meta "h1" "product"⟩] wSt0 wStockErr _ _
    rfl rfl rfl rfl (by decide) (by decide) (by decide)).1 rfl
  rw [h]
  exact ⟨rfl, by decide, by decide, by decide⟩

/-! ### Conflict forgetting at the move stage (C6) -/

/-- Counterexample to C6: an order whose `orderNumber` already names an
existing transfer document but no sales document.  The pass still performs
a downstream write for the order — it creates the sales document
(sync.py lines 381-403) before discovering the move and forgetting the
order — so "no downstream write of any kind is attempted" is false. -/
theorem conflict_forget_counterexample :
    (runPass wCfg wMoveCfg wEnv 0 [wDet]
        ⟨[], [("N1", mkMoveDoc "N1" true)]⟩
        [("1", ⟨"N1", "IN_TRANSIT", .dry, .dry⟩)] []).2 = none
    ∧ (runPass wCfg wMoveCfg wEnv 0 [wDet]
        ⟨[], [("N1", mkMoveDoc "N1" true)]⟩
        [("1", ⟨"N1", "IN_TRANSIT", .dry, .dry⟩)] []).1.mem = []
    ∧ (coEvs (runPass wCfg wMoveCfg wEnv 0 [wDet]
        ⟨[], [("N1", mkMoveDoc "N1" true)]⟩
        [("1", ⟨"N1", "IN_TRANSIT", .dry, .dry⟩)] []).1.trace).length = 1
    ∧ moveEvs (runPass wCfg wMoveCfg wEnv 0 [wDet]
        ⟨[], [("N1", mkMoveDoc "N1" true)]⟩
        [("1", ⟨"N1", "IN_TRANSIT", .dry, .dry⟩)] []).1.trace = []
    ∧ (runPass wCfg wMoveCfg wEnv 0 [wDet]
        ⟨[], [("N1", mkMoveDoc "N1" true)]⟩
        [("1", ⟨"N1", "IN_TRANSIT", .dry, .dry⟩)] []).1.created = 1 := by
  refine ⟨?_, ?_, ?_, ?_, ?_⟩ <;> decide

/-- C6 (amended): for a candidate order whose `orderNumber` names an
existing transfer document, the order's memory entry is removed and no
transfer-document write is attempted; and when the sales document also
already exists, no downstream write of any kind occurs — the order's
processing leaves world and trace untouched (sync.py lines 411-416).  (When
the sales document is missing it is still created first; see the
counterexample.) -/
theorem move_exists_forgets (cfg : FboConfig) (mcfg : MoveCfg) (env : Env)
    (startTs : Int) (det : OrderDet) (st : PassSt) (order_id : String)
    (co mv : MsDoc)
    (hsel : selectOrder env startTs st.mem det = .go order_id)
    (hbid : (destInfo det).2 ≠ "")
    (herr : (buildPositions env.cat st.cache (env.bundleItems (destInfo det).2)).2.1 = [])
    (hco : find_customerorder_by_name st.world det.order_number = some co)
    (hmv : find_move_by_name st.world det.order_number = some mv) :
    processOrder cfg mcfg env startTs det st =
      ({ st with
          cache := (buildPositions env.cat st.cache (env.bundleItems (destInfo det).2)).2.2,
          mem := memPop st.mem order_id,
          skipped := st.skipped + 1 }, none) := by
  unfold processOrder processOrderG
  rw [hsel]
  dsimp only
  rw [if_neg hbid]
  rw [herr]
  dsimp only
  unfold coStageG
  rw [hco]
  dsimp only
  unfold moveStage
  rw [show find_move_by_name
      ({ st with cache := (buildPositions env.cat st.cache
          (env.bundleItems (destInfo det).2)).2.2 } : PassSt).world det.order_number =
      some mv from hmv]

/-- Witness for C6 (amended): both documents already exist downstream; the
order's entry is removed, nothing is written. -/
theorem move_exists_forgets_witness :
    processOrder wCfg wMoveCfg wEnv 0 wDet
      ⟨⟨[("N1", mkCoDoc "N1")], [("N1", mkMoveDoc "N1" true)]⟩,
       [("1", ⟨"N1", "IN_TRANSIT", .dry, .dry⟩)], [], 0, 0, []⟩ =
      (⟨⟨[("N1", mkCoDoc "N1")], [("N1", mkMoveDoc "N1" true)]⟩,
        [], [("ITEM-1", .product (meta "h1" "product") 100 "ITEM-1")], 0, 1, []⟩, none) := by
  have h := move_exists_forgets wCfg wMoveCfg wEnv 0 wDet
    ⟨⟨[("N1", mkCoDoc "N1")], [("N1", mkMoveDoc "N1" true)]⟩,
     [("1", ⟨"N1", "IN_TRANSIT", .dry, .dry⟩)], [], 0, 0, []⟩ "1"
    (mkCoDoc "N1") (mkMoveDoc "N1" true)
    (by decide) (by decide) (by decide) (by decide) (by decide)
  rw [h]
  decide

/-! ### Unclassified write failure (C3) -/

/-- Counterexample to C3: two orders; the first order's transfer creation
fails with an unclassified error (`wBoom`).  The pass does not continue
with the remaining order: it aborts with the error, the second order's
documents and memory are never touched and it is not even counted as
skipped. -/
theorem unclassified_error_counterexample :
    (runPass wCfg wMoveCfg wEnvBoom 0 [wDet, wDet2] ⟨[], []⟩ [] []).2 = some wBoom
    ∧ look (runPass wCfg wMoveCfg wEnvBoom 0 [wDet, wDet2] ⟨[], []⟩ [] []).1.world.cos "N2"
        = none
    ∧ look (runPass wCfg wMoveCfg wEnvBoom 0 [wDet, wDet2] ⟨[], []⟩ [] []).1.mem "2" = none
    ∧ look (runPass wCfg wMoveCfg wEnvBoom 0 [wDet, wDet2] ⟨[], []⟩ [] []).1.mem "1" = none
    ∧ (runPass wCfg wMoveCfg wEnvBoom 0 [wDet, wDet2] ⟨[], []⟩ [] []).1.skipped = 0
    ∧ (runPass wCfg wMoveCfg wEnvBoom 0 [wDet, wDet2] ⟨[], []⟩ [] []).1.created = 1
    ∧ _is_name_conflict wBoom = false
    ∧ _is_stock_error wBoom = false := by
  refine ⟨?_, ?_, ?_, ?_, ?_, ?_, ?_, ?_⟩ <;> decide

/-- C3 (amended): when the transfer creation fails with an error classified
as neither name-conflict nor stock-insufficiency, the `raise` of sync.py
line 456 propagates out of the entire pass: the failing order's memory
entry (and the whole memory) is left unchanged, so it is reconsidered on
the next pass, but the remaining orders of this pass are not processed —
the pass returns the error and the outer poll loop, not the pass, carries
on. -/
theorem unclassified_error_aborts_pass (cfg : FboConfig) (mcfg : MoveCfg)
    (env : Env) (startTs : Int) (det : OrderDet) (st : PassSt)
    (order_id : String) (co : MsDoc) (e : HttpErr) (rest : List OrderDet)
    (hsel : selectOrder env startTs st.mem det = .go order_id)
    (hbid : (destInfo det).2 ≠ "")
    (herr : (buildPositions env.cat st.cache (env.bundleItems (destInfo det).2)).2.1 = [])
    (hco : find_customerorder_by_name st.world det.order_number = some co)
    (hnf : find_move_by_name st.world det.order_number = none)
    (hdry : cfg.dry_run = false)
    (hmv : env.moveErr (mkMoveBody cfg mcfg env det.order_number (destInfo det).1 co.id
        (buildPositions env.cat st.cache (env.bundleItems (destInfo det).2)).1) = some e)
    (hc : _is_name_conflict e = false)
    (hs : _is_stock_error e = false) :
    processOrder cfg mcfg env startTs det st =
      ({ st with
          cache := (buildPositions env.cat st.cache (env.bundleItems (destInfo det).2)).2.2,
          trace := st.trace ++ [.createMove (mkMoveBody cfg mcfg env det.order_number
            (destInfo det).1 co.id
            (buildPositions env.cat st.cache (env.bundleItems (destInfo det).2)).1)] },
        some e)
    ∧ runPassCore cfg mcfg env startTs (det :: rest) st =
        processOrder cfg mcfg env startTs det st := by
  have h1 : processOrder cfg mcfg env startTs det st =
      ({ st with
          cache := (buildPositions env.cat st.cache (env.bundleItems (destInfo det).2)).2.2,
          trace := st.trace ++ [.createMove (mkMoveBody cfg mcfg env det.order_number
            (destInfo det).1 co.id
            (buildPositions env.cat st.cache (env.bundleItems (destInfo det).2)).1)] },
        some e) := by
    unfold processOrder processOrderG
    rw [hsel]
    dsimp only
    rw [if_neg hbid]
    rw [herr]
    dsimp only
    unfold coStageG
    rw [hco]
    dsimp only
    unfold moveStage
    rw [show find_move_by_name
        ({ st with cache := (buildPositions env.cat st.cache
            (env.bundleItems (destInfo det).2)).2.2 } : PassSt).world det.order_number =
        none from hnf]
    dsimp only
    rw [if_neg (by rw [hdry]; exact Bool.false_ne_true)]
    rw [hmv]
    dsimp only
    rw [if_neg (by rw [hc]; exact Bool.false_ne_true)]
    rw [if_neg (by rw [hs]; exact Bool.false_ne_true)]
  refine ⟨h1, ?_⟩
  unfold runPassCore
  rw [h1]

/-- Witness for C3 (amended): concrete order with the sales document
already present and an unclassified move failure; the pass aborts, leaving
the memory (including the failing order's entry) exactly as it was. -/
theorem unclassified_error_aborts_pass_witness :
    (runPassCore wCfg wMoveCfg wEnvBoom 0 [wDet, wDet2]
        ⟨⟨[("N1", mkCoDoc "N1")], []⟩,
         [("1", ⟨"N1", "IN_TRANSIT", .dry, .dry⟩)], [], 0, 0, []⟩).2 = some wBoom
    ∧ (runPassCore wCfg wMoveCfg wEnvBoom 0 [wDet, wDet2]
        ⟨⟨[("N1", mkCoDoc "N1")], []⟩,
         [("1", ⟨"N1", "IN_TRANSIT", .dry, .dry⟩)], [], 0, 0, []⟩).1.mem =
        [("1", ⟨"N1", "IN_TRANSIT", .dry, .dry⟩)] := by
  have h := unclassified_error_aborts_pass wCfg wMoveCfg wEnvBoom 0 wDet
    ⟨⟨[("N1", mkCoDoc "N1")], []⟩,
     [("1", ⟨"N1", "IN_TRANSIT", .dry, .dry⟩)], [], 0, 0, []⟩ "1"
    (mkCoDoc "N1") wBoom [wDet2]
    (by decide) (by decide) (by decide) (by decide) (by decide) rfl
    (by decide) (by decide) (by decide)
  rw [h.2, h.1]
  exact ⟨rfl, rfl⟩

/-! ### Dry run (C4) -/

lemma moveStage_dry (cfg : FboConfig) (mcfg : MoveCfg) (env : Env)
    (oid n state cm : String) (co : MsDoc) (ps : List Position) (st : PassSt)
    (hd : cfg.dry_run = true) :
    (moveStage cfg mcfg env oid n state cm co ps st).2 = none
    ∧ (moveStage cfg mcfg env oid n state cm co ps st).1.trace = st.trace
    ∧ (moveStage cfg mcfg env oid n state cm co ps st).1.created = st.created
    ∧ (moveStage cfg mcfg env oid n state cm co ps st).1.world = st.world
    ∧ (∀ k e, look (moveStage cfg mcfg env oid n state cm co ps st).1.mem k = some e →
        look st.mem k = some e ∨ (e.msRef = .dry ∧ e.moveRef = .dry)) := by
  unfold moveStage
  cases hf : find_move_by_name st.world n with
  | some mv =>
    refine ⟨rfl, rfl, rfl, rfl, ?_⟩
    intro k e h
    by_cases hk : k = oid
    · rw [hk, look_memPop_self] at h; exact absurd h (by simp)
    · rw [look_memPop_ne st.mem oid k hk] at h; exact Or.inl h
  | none =>
    dsimp only
    rw [if_pos hd]
    refine ⟨rfl, rfl, rfl, rfl, ?_⟩
    intro k e h
    by_cases hk : k = oid
    · rw [hk, look_memSet_self] at h
      injection h with h2
      subst h2
      exact Or.inr ⟨rfl, rfl⟩
    · rw [look_memSet_ne st.mem oid k _ hk] at h; exact Or.inl h

lemma processOrder_dry (cfg : FboConfig) (mcfg : MoveCfg) (env : Env) (t : Int)
    (det : OrderDet) (st : PassSt) (hd : cfg.dry_run = true) :
    (processOrder cfg mcfg env t det st).2 = none
    ∧ (processOrder cfg mcfg env t det st).1.trace = st.trace
    ∧ (processOrder cfg mcfg env t det st).1.created = st.created
    ∧ (processOrder cfg mcfg env t det st).1.world = st.world
    ∧ (∀ k e, look (processOrder cfg mcfg env t det st).1.mem k = some e →
        look st.mem k = some e ∨ (e.msRef = .dry ∧ e.moveRef = .dry)) := by
  unfold processOrder processOrderG
  cases hsel : selectOrder env t st.mem det with
  | skip => exact ⟨rfl, rfl, rfl, rfl, fun k e h => Or.inl h⟩
  | cancelSkip oid =>
    refine ⟨rfl, rfl, rfl, rfl, ?_⟩
    intro k e h
    by_cases hk : k = oid
    · rw [hk, look_memPop_self] at h; exact absurd h (by simp)
    · rw [look_memPop_ne st.mem oid k hk] at h; exact Or.inl h
  | go oid =>
    dsimp only
    by_cases hbid : (destInfo det).2 = ""
    · rw [if_pos hbid]
      exact ⟨rfl, rfl, rfl, rfl, fun k e h => Or.inl h⟩
    · rw [if_neg hbid]
      cases herr : (buildPositions env.cat st.cache
          (env.bundleItems (destInfo det).2)).2.1 with
      | cons x xs => exact ⟨rfl, rfl, rfl, rfl, fun k e h => Or.inl h⟩
      | nil =>
        dsimp only
        unfold coStageG
        cases hex : find_customerorder_by_name st.world det.order_number with
        | some co =>
          dsimp only
          exact moveStage_dry cfg mcfg env oid det.order_number det.state
            (destInfo det).1 co
            (buildPositions env.cat st.cache (env.bundleItems (destInfo det).2)).1
            _ hd
        | none =>
          dsimp only
          rw [if_pos hd]
          exact moveStage_dry cfg mcfg env oid det.order_number det.state
            (destInfo det).1 ⟨"DRY", "DRY", none⟩
            (buildPositions env.cat st.cache (env.bundleItems (destInfo det).2)).1
            _ hd

lemma runPassCore_dry (cfg : FboConfig) (mcfg : MoveCfg) (env : Env) (t : Int)
    (hd : cfg.dry_run = true) :
    ∀ (orders : List OrderDet) (st : PassSt),
      (runPassCore cfg mcfg env t orders st).2 = none
      ∧ (runPassCore cfg mcfg env t orders st).1.trace = st.trace
      ∧ (runPassCore cfg mcfg env t orders st).1.created = st.created
      ∧ (runPassCore cfg mcfg env t orders st).1.world = st.world
      ∧ (∀ k e, look (runPassCore cfg mcfg env t orders st).1.mem k = some e →
          look st.mem k = some e ∨ (e.msRef = .dry ∧ e.moveRef = .dry)) := by
  intro orders
  induction orders with
  | nil => exact fun st => ⟨rfl, rfl, rfl, rfl, fun k e h => Or.inl h⟩
  | cons det rest ih =>
    intro st
    have hp := processOrder_dry cfg mcfg env t det st hd
    unfold runPassCore
    cases hpo : processOrder cfg mcfg env t det st with
    | mk st2 err =>
      rw [hpo] at hp
      obtain ⟨h1, h2, h3, h4, h5⟩ := hp
      simp only at h1 h2 h3 h4
      cases err with
      | some e => exact absurd h1 (by simp)
      | none =>
        dsimp only
        obtain ⟨g1, g2, g3, g4, g5⟩ := ih st2
        refine ⟨g1, by rw [g2, h2], by rw [g3, h3], by rw [g4, h4], ?_⟩
        intro k e h
        rcases g5 k e h with hg | hg
        · exact h5 k e hg
        · exact Or.inr hg

/-- C4 (amended): with dry-run enabled a pass performs no downstream write
calls at all — its write trace is empty and the document store is
unchanged — and it never raises; but its counts are not identical to a live
run's: `created` is always 0 (orders a live run would create are counted
as skipped, sync.py lines 396-399 and 431-440), and every memory entry the
pass writes is the dry placeholder shape rather than a document
reference. -/
theorem dry_run_no_writes (cfg : FboConfig) (mcfg : MoveCfg) (env : Env)
    (startTs : Int) (orders : List OrderDet) (w : World) (m : Mem) (a : Cache)
    (hd : cfg.dry_run = true) :
    (runPass cfg mcfg env startTs orders w m a).2 = none
    ∧ (runPass cfg mcfg env startTs orders w m a).1.trace = []
    ∧ (runPass cfg mcfg env startTs orders w m a).1.created = 0
    ∧ (runPass cfg mcfg env startTs orders w m a).1.world = w
    ∧ (∀ k e, look (runPass cfg mcfg env startTs orders w m a).1.mem k = some e →
        look m k = some e ∨ (e.msRef = .dry ∧ e.moveRef = .dry)) := by
  exact runPassCore_dry cfg mcfg env startTs hd orders ⟨w, m, a, 0, 0, []⟩

/-- Counterexample to C4: over the same single fresh order, the live pass
returns `(created, skipped) = (1, 0)` and records a live memory entry,
while the dry pass returns `(0, 1)` and records the dry placeholder entry —
the counts and the memory updates are not identical. -/
theorem dry_run_counterexample :
    (runPass wCfg wMoveCfg wEnv 0 [wDet] ⟨[], []⟩ [] []).1.created = 1
    ∧ (runPass wCfg wMoveCfg wEnv 0 [wDet] ⟨[], []⟩ [] []).1.skipped = 0
    ∧ (runPass wCfgDry wMoveCfg wEnv 0 [wDet] ⟨[], []⟩ [] []).1.created = 0
    ∧ (runPass wCfgDry wMoveCfg wEnv 0 [wDet] ⟨[], []⟩ [] []).1.skipped = 1
    ∧ look (runPass wCfg wMoveCfg wEnv 0 [wDet] ⟨[], []⟩ [] []).1.mem "1" =
        some ⟨"N1", "READY_TO_SUPPLY", .live "co:N1" "href:co:N1" none,
              .live "mv:N1" "href:mv:N1" (some true)⟩
    ∧ look (runPass wCfgDry wMoveCfg wEnv 0 [wDet] ⟨[], []⟩ [] []).1.mem "1" =
        some ⟨"N1", "READY_TO_SUPPLY", .dry, .dry⟩
    ∧ ¬ ((runPass wCfgDry wMoveCfg wEnv 0 [wDet] ⟨[], []⟩ [] []).1.created =
          (runPass wCfg wMoveCfg wEnv 0 [wDet] ⟨[], []⟩ [] []).1.created
        ∧ (runPass wCfgDry wMoveCfg wEnv 0 [wDet] ⟨[], []⟩ [] []).1.skipped =
          (runPass wCfg wMoveCfg wEnv 0 [wDet] ⟨[], []⟩ [] []).1.skipped) := by
  refine ⟨?_, ?_, ?_, ?_, ?_, ?_, ?_⟩ <;> decide

/-- Witness for C4 (amended): the dry pass over the concrete order makes no
write call, creates nothing, and leaves the document store untouched. -/
theorem dry_run_no_writes_witness :
    (runPass wCfgDry wMoveCfg wEnv 0 [wDet] ⟨[], []⟩ [] []).1.trace = []
    ∧ (runPass wCfgDry wMoveCfg wEnv 0 [wDet] ⟨[], []⟩ [] []).1.created = 0
    ∧ (runPass wCfgDry wMoveCfg wEnv 0 [wDet] ⟨[], []⟩ [] []).1.world = ⟨[], []⟩ := by
  have h := dry_run_no_writes wCfgDry wMoveCfg wEnv 0 [wDet] ⟨[], []⟩ [] [] rfl
  exact ⟨h.2.1, h.2.2.1, h.2.2.2.1⟩

/-! ### Cache extension lemmas (C2 infrastructure) -/

lemma goodExt_refl (cat : Catalog) (a : Cache) : GoodExt cat a a :=
  fun _ => Or.inl rfl

lemma goodExt_trans (cat : Catalog) (a b c : Cache)
    (h1 : GoodExt cat a b) (h2 : GoodExt cat b c) : GoodExt cat a c := by
  intro k
  rcases h2 k with h2k | ⟨hbn, r, hcr, hpr⟩
  · rcases h1 k with h1k | ⟨han, r, hbr, hpr⟩
    · exact Or.inl (h2k.trans h1k)
    · exact Or.inr ⟨han, r, h2k.trans hbr, hpr⟩
  · rcases h1 k with h1k | ⟨han, r2, hbr2, hpr2⟩
    · rw [h1k] at hbn
      exact Or.inr ⟨hbn, r, hcr, hpr⟩
    · rw [hbn] at hbr2
      exact absurd hbr2 (by simp)

lemma resolve_fst_congr (cat : Catalog) (a b : Cache) (off : String)
    (h : GoodExt cat a b) :
    (resolve_assortment cat b off).1 = (resolve_assortment cat a off).1 := by
  unfold resolve_assortment
  dsimp only
  rcases h (normalize_offer_id off) with hk | ⟨han, r, hbr, hpr⟩
  · rw [hk]
    cases look a (normalize_offer_id off) with
    | some r => rfl
    | none => cases pureResolve cat (normalize_offer_id off) <;> rfl
  · rw [hbr, han, hpr]

lemma resolve_goodExt_self (cat : Catalog) (a : Cache) (off : String) :
    GoodExt cat a (resolve_assortment cat a off).2 := by
  unfold resolve_assortment
  dsimp only
  cases hl : look a (normalize_offer_id off) with
  | some r => exact goodExt_refl cat a
  | none =>
    cases hp : pureResolve cat (normalize_offer_id off) with
    | ok r =>
      dsimp only
      intro k
      by_cases hk : normalize_offer_id off = k
      · subst hk
        exact Or.inr ⟨hl, r, by simp [look], hp⟩
      · left
        simp [look, hk]
    | error e => exact goodExt_refl cat a

lemma resolve_step_goodExt (cat : Catalog) (a b : Cache) (off : String)
    (h : GoodExt cat a b) :
    GoodExt cat (resolve_assortment cat a off).2 (resolve_assortment cat b off).2 := by
  unfold resolve_assortment
  dsimp only
  cases hla : look a (normalize_offer_id off) with
  | some r =>
    have hlb : look b (normalize_offer_id off) = some r := by
      rcases h (normalize_offer_id off) with h1 | ⟨han, r2, hbr2, hpr2⟩
      · rw [h1, hla]
      · rw [han] at hla; exact absurd hla (by simp)
    rw [hlb]
    exact h
  | none =>
    cases hlb : look b (normalize_offer_id off) with
    | some r =>
      have hfr : pureResolve cat (normalize_offer_id off) = .ok r := by
        rcases h (normalize_offer_id off) with h1 | ⟨han, r2, hbr2, hpr2⟩
        · rw [hla] at h1; rw [h1] at hlb; exact absurd hlb (by simp)
        · rw [hlb] at hbr2
          injection hbr2 with h3
          rw [h3]
          exact hpr2
      rw [hfr]
      dsimp only
      intro k
      by_cases hk : normalize_offer_id off = k
      · subst hk
        left
        rw [hlb]
        simp [look]
      · rcases h k with h1 | ⟨han, r2, hbr2, hpr2⟩
        · left
          rw [h1]
          simp [look, hk]
        · right
          refine ⟨?_, r2, hbr2, hpr2⟩
          simp [look, hk, han]
    | none =>
      cases hp : pureResolve cat (normalize_offer_id off) with
      | ok r =>
        dsimp only
        intro k
        by_cases hk : normalize_offer_id off = k
        · subst hk
          left
          simp [look]
        · rcases h k with h1 | ⟨han, r2, hbr2, hpr2⟩
          · left
            simp only [look, if_neg hk]
            exact h1
          · right
            refine ⟨?_, r2, ?_, hpr2⟩
            · simp [look, hk, han]
            · simp only [look, if_neg hk]
              exact hbr2
      | error e => exact h

lemma buildPositions_congr (cat : Catalog) (items : List OzItem) :
    ∀ a b : Cache, GoodExt cat a b →
      (buildPositions cat b items).1 = (buildPositions cat a items).1
      ∧ (buildPositions cat b items).2.1 = (buildPositions cat a items).2.1
      ∧ GoodExt cat (buildPositions cat a items).2.2 (buildPositions cat b items).2.2 := by
  induction items with
  | nil => exact fun a b h => ⟨rfl, rfl, h⟩
  | cons oi rest ih =>
    intro a b h
    by_cases ho : oi.offer_id = ""
    · simp only [buildPositions, if_pos ho]
      exact ih a b h
    · simp only [buildPositions, if_neg ho]
      have hfst := resolve_fst_congr cat a b oi.offer_id h
      have hstep := resolve_step_goodExt cat a b oi.offer_id h
      cases hra : resolve_assortment cat a oi.offer_id with
      | mk res a2 =>
        cases hrb : resolve_assortment cat b oi.offer_id with
        | mk res2 b2 =>
          rw [hra, hrb] at hfst hstep
          simp only at hfst hstep
          subst hfst
          obtain ⟨g1, g2, g3⟩ := ih a2 b2 hstep
          cases res2 with
          | error err =>
            dsimp only
            exact ⟨g1, by rw [g2], g3⟩
          | ok rec =>
            dsimp only
            exact ⟨by rw [g1], g2, g3⟩

lemma buildPositions_goodExt_self (cat : Catalog) (items : List OzItem) :
    ∀ a : Cache, GoodExt cat a (buildPositions cat a items).2.2 := by
  induction items with
  | nil => exact fun a => goodExt_refl cat a
  | cons oi rest ih =>
    intro a
    by_cases ho : oi.offer_id = ""
    · simp only [buildPositions, if_pos ho]
      exact ih a
    · simp only [buildPositions, if_neg ho]
      have hself := resolve_goodExt_self cat a oi.offer_id
      cases hra : resolve_assortment cat a oi.offer_id with
      | mk res a2 =>
        rw [hra] at hself
        simp only at hself
        cases res with
        | error err =>
          dsimp only
          exact goodExt_trans cat a a2 _ hself (ih a2)
        | ok rec =>
          dsimp only
          exact goodExt_trans cat a a2 _ hself (ih a2)

/-! ### Selection stage lemmas (C2 infrastructure) -/

lemma selectOrder_congr (env : Env) (t : Int) (det : OrderDet) (m m2 : Mem)
    (h : ∀ oid, det.order_id = some oid → look m2 (toString oid) = look m (toString oid)) :
    selectOrder env t m2 det = selectOrder env t m det := by
  unfold selectOrder
  cases hid : det.order_id with
  | none => rfl
  | some oid =>
    have hk := h oid hid
    simp only [memShortCircuit, hk]

lemma selectOrder_go_key (env : Env) (t : Int) (m : Mem) (det : OrderDet)
    (oid : String) (h : selectOrder env t m det = .go oid) : keyOf det = some oid := by
  unfold selectOrder at h
  cases hid : det.order_id with
  | none => rw [hid] at h; exact absurd h (by simp)
  | some i =>
    rw [hid] at h
    dsimp only at h
    repeat' split at h
    all_goals simp_all [keyOf]

lemma selectOrder_cancel_key (env : Env) (t : Int) (m : Mem) (det : OrderDet)
    (oid : String) (h : selectOrder env t m det = .cancelSkip oid) :
    keyOf det = some oid := by
  unfold selectOrder at h
  cases hid : det.order_id with
  | none => rw [hid] at h; exact absurd h (by simp)
  | some i =>
    rw [hid] at h
    dsimp only at h
    repeat' split at h
    all_goals simp_all [keyOf]

lemma selectOrder_cancel_any (env : Env) (t : Int) (m : Mem) (det : OrderDet)
    (oid : String) (h : selectOrder env t m det = .cancelSkip oid) (m2 : Mem) :
    selectOrder env t m2 det = .cancelSkip oid := by
  unfold selectOrder at h ⊢
  cases hid : det.order_id with
  | none => rw [hid] at h; exact absurd h (by simp)
  | some i =>
    rw [hid] at h
    dsimp only at h ⊢
    by_cases h1 : det.order_number = ""
    · rw [if_pos h1] at h; exact absurd h (by simp)
    · rw [if_neg h1] at h ⊢
      by_cases h2 : CANCELLED_STATES.contains det.state = true
      · rw [if_pos h2] at h ⊢; exact h
      · rw [if_neg h2] at h ⊢
        exfalso
        by_cases h3 : det.timeslot_from = ""
        · rw [if_pos h3] at h; exact absurd h (by simp)
        · rw [if_neg h3] at h
          cases hp : env.parseTs det.timeslot_from with
          | none => rw [hp] at h; exact absurd h (by simp)
          | some ts =>
            rw [hp] at h
            dsimp only at h
            by_cases h4 : ts < t
            · rw [if_pos h4] at h; exact absurd h (by simp)
            · rw [if_neg h4] at h
              by_cases h5 : memShortCircuit m (toString i) det.state = true
              · rw [if_pos h5] at h; exact absurd h (by simp)
              · rw [if_neg h5] at h; exact absurd h (by simp)

/-! ### Frame lemmas: what one order's processing can change (C2) -/

lemma moveStage_frame (cfg : FboConfig) (mcfg : MoveCfg) (env : Env)
    (oid n state cm : String) (co : MsDoc) (ps : List Position) (st : PassSt) :
    (moveStage cfg mcfg env oid n state cm co ps st).1.world.cos = st.world.cos
    ∧ (∀ n2 d, look st.world.moves n2 = some d →
        look (moveStage cfg mcfg env oid n state cm co ps st).1.world.moves n2 = some d)
    ∧ (moveStage cfg mcfg env oid n state cm co ps st).1.cache = st.cache
    ∧ (∀ k, k ≠ oid →
        look (moveStage cfg mcfg env oid n state cm co ps st).1.mem k = look st.mem k) := by
  unfold moveStage
  cases hf : find_move_by_name st.world n with
  | some mv =>
    exact ⟨rfl, fun n2 d h => h, rfl, fun k hk => look_memPop_ne st.mem oid k hk⟩
  | none =>
    dsimp only
    by_cases hd : cfg.dry_run = true
    · rw [if_pos hd]
      exact ⟨rfl, fun n2 d h => h, rfl, fun k hk => look_memSet_ne st.mem oid k _ hk⟩
    · rw [if_neg hd]
      cases hmv : env.moveErr (mkMoveBody cfg mcfg env n cm co.id ps) with
      | none =>
        dsimp only
        refine ⟨rfl, ?_, rfl, fun k hk => look_memSet_ne st.mem oid k _ hk⟩
        intro n2 d h
        have hne : n ≠ n2 := by
          intro hc
          rw [hc] at hf
          unfold find_move_by_name at hf
          rw [hf] at h
          exact absurd h (by simp)
        simp only [look, if_neg hne]
        exact h
      | some e =>
        dsimp only
        by_cases hc : _is_name_conflict e = true
        · rw [if_pos hc]
          exact ⟨rfl, fun n2 d h => h, rfl, fun k hk => look_memPop_ne st.mem oid k hk⟩
        · rw [if_neg hc]
          by_cases hs : _is_stock_error e = true
          · rw [if_pos hs]
            cases hmv2 : env.moveErr
                { mkMoveBody cfg mcfg env n cm co.id ps with applicable := false } with
            | none =>
              dsimp only
              refine ⟨rfl, ?_, rfl, fun k hk => look_memSet_ne st.mem oid k _ hk⟩
              intro n2 d h
              have hne : n ≠ n2 := by
                intro hc2
                rw [hc2] at hf
                unfold find_move_by_name at hf
                rw [hf] at h
                exact absurd h (by simp)
              simp only [look, if_neg hne]
              exact h
            | some e2 =>
              exact ⟨rfl, fun n2 d h => h, rfl, fun k hk => rfl⟩
          · rw [if_neg hs]
            exact ⟨rfl, fun n2 d h => h, rfl, fun k hk => rfl⟩

lemma processOrder_frame (cfg : FboConfig) (mcfg : MoveCfg) (env : Env)
    (t : Int) (det : OrderDet) (st : PassSt) :
    (∀ n d, look st.world.cos n = some d →
        look (processOrder cfg mcfg env t det st).1.world.cos n = some d)
    ∧ (∀ n d, look st.world.moves n = some d →
        look (processOrder cfg mcfg env t det st).1.world.moves n = some d)
    ∧ GoodExt env.cat st.cache (processOrder cfg mcfg env t det st).1.cache
    ∧ (∀ k, keyOf det ≠ some k →
        look (processOrder cfg mcfg env t det st).1.mem k = look st.mem k) := by
  unfold processOrder processOrderG
  cases hsel : selectOrder env t st.mem det with
  | skip =>
    exact ⟨fun n d h => h, fun n d h => h, goodExt_refl _ _, fun k hk => rfl⟩
  | cancelSkip oid =>
    have hko := selectOrder_cancel_key env t st.mem det oid hsel
    refine ⟨fun n d h => h, fun n d h => h, goodExt_refl _ _, ?_⟩
    intro k hk
    have hne : k ≠ oid := fun hc => hk (by rw [hko, hc])
    exact look_memPop_ne st.mem oid k hne
  | go oid =>
    have hko := selectOrder_go_key env t st.mem det oid hsel
    dsimp only
    by_cases hbid : (destInfo det).2 = ""
    · rw [if_pos hbid]
      exact ⟨fun n d h => h, fun n d h => h, goodExt_refl _ _, fun k hk => rfl⟩
    · rw [if_neg hbid]
      have hbp := buildPositions_goodExt_self env.cat
        (env.bundleItems (destInfo det).2) st.cache
      cases herr : (buildPositions env.cat st.cache
          (env.bundleItems (destInfo det).2)).2.1 with
      | cons x xs =>
        exact ⟨fun n d h => h, fun n d h => h, hbp, fun k hk => rfl⟩
      | nil =>
        dsimp only
        unfold coStageG
        cases hex : find_customerorder_by_name st.world det.order_number with
        | some co =>
          dsimp only
          have hms := moveStage_frame cfg mcfg env oid det.order_number det.state
            (destInfo det).1 co
            (buildPositions env.cat st.cache (env.bundleItems (destInfo det).2)).1
            { st with cache := (buildPositions env.cat st.cache
                (env.bundleItems (destInfo det).2)).2.2 }
          obtain ⟨g1, g2, g3, g4⟩ := hms
          refine ⟨?_, ?_, ?_, ?_⟩
          · intro n d h; rw [g1]; exact h
          · intro n d h; exact g2 n d h
          · rw [g3]; exact hbp
          · intro k hk
            have hne : k ≠ oid := fun hc => hk (by rw [hko, hc])
            exact g4 k hne
        | none =>
          dsimp only
          by_cases hd : cfg.dry_run = true
          · rw [if_pos hd]
            have hms := moveStage_frame cfg mcfg env oid det.order_number det.state
              (destInfo det).1 ⟨"DRY", "DRY", none⟩
              (buildPositions env.cat st.cache (env.bundleItems (destInfo det).2)).1
              { st with cache := (buildPositions env.cat st.cache
                  (env.bundleItems (destInfo det).2)).2.2 }
            obtain ⟨g1, g2, g3, g4⟩ := hms
            refine ⟨?_, ?_, ?_, ?_⟩
            · intro n d h; rw [g1]; exact h
            · intro n d h; exact g2 n d h
            · rw [g3]; exact hbp
            · intro k hk
              have hne : k ≠ oid := fun hc => hk (by rw [hko, hc])
              exact g4 k hne
          · rw [if_neg hd]
            cases hco : env.coErr (mkCoBody cfg env det.order_number (destInfo det).1
                (buildPositions env.cat st.cache (env.bundleItems (destInfo det).2)).1
                det.timeslot_from) with
            | some e =>
              dsimp only
              exact ⟨fun n d h => h, fun n d h => h, hbp, fun k hk => rfl⟩
            | none =>
              dsimp only
              have hms := moveStage_frame cfg mcfg env oid det.order_number det.state
                (destInfo det).1 (mkCoDoc det.order_number)
                (buildPositions env.cat st.cache (env.bundleItems (destInfo det).2)).1
                { st with
                    world := { st.world with
                      cos := (det.order_number, mkCoDoc det.order_number) :: st.world.cos },
                    created := st.created + 1,
                    cache := (buildPositions env.cat st.cache
                      (env.bundleItems (destInfo det).2)).2.2,
                    trace := st.trace ++ [.createCustomerorder (mkCoBody cfg env
                      det.order_number (destInfo det).1
                      (buildPositions env.cat st.cache
                        (env.bundleItems (destInfo det).2)).1 det.timeslot_from)] }
              obtain ⟨g1, g2, g3, g4⟩ := hms
              refine ⟨?_, ?_, ?_, ?_⟩
              · intro n d h
                rw [g1]
                dsimp only
                have hne : det.order_number ≠ n := by
                  intro hc
                  rw [hc] at hex
                  unfold find_customerorder_by_name at hex
                  rw [hex] at h
                  exact absurd h (by simp)
                simp only [look, if_neg hne]
                exact h
              · intro n d h; exact g2 n d h
              · rw [g3]; exact hbp
              · intro k hk
                have hne : k ≠ oid := fun hc => hk (by rw [hko, hc])
                exact g4 k hne

/-! ### Establishment: a processed order is settled (C2) -/

lemma moveStage_establishes (cfg : FboConfig) (mcfg : MoveCfg) (env : Env)
    (oid n state cm : String) (co : MsDoc) (ps : List Position)
    (st st2 : PassSt)
    (hdry : cfg.dry_run = false)
    (h : moveStage cfg mcfg env oid n state cm co ps st = (st2, none))
    (hco : look st.world.cos n = some co) :
    look st2.world.cos n = some co
    ∧ ((∃ mv, look st2.world.moves n = some mv)
       ∨ (look st2.world.moves n = none ∧
          ∃ e, env.moveErr (mkMoveBody cfg mcfg env n cm co.id ps) = some e ∧
               _is_name_conflict e = true))
    ∧ st2.cache = st.cache := by
  unfold moveStage at h
  cases hf : find_move_by_name st.world n with
  | some mv =>
    rw [hf] at h
    dsimp only at h
    injection h with h1 _
    subst h1
    refine ⟨hco, Or.inl ⟨mv, ?_⟩, rfl⟩
    exact hf
  | none =>
    rw [hf] at h
    dsimp only at h
    rw [if_neg (by rw [hdry]; exact Bool.false_ne_true)] at h
    cases hmv : env.moveErr (mkMoveBody cfg mcfg env n cm co.id ps) with
    | none =>
      rw [hmv] at h
      dsimp only at h
      injection h with h1 _
      subst h1
      refine ⟨hco, Or.inl ⟨mkMoveDoc n true, ?_⟩, rfl⟩
      simp [look]
    | some e =>
      rw [hmv] at h
      dsimp only at h
      by_cases hc : _is_name_conflict e = true
      · rw [if_pos hc] at h
        injection h with h1 _
        subst h1
        exact ⟨hco, Or.inr ⟨hf, e, rfl, hc⟩, rfl⟩
      · rw [if_neg hc] at h
        by_cases hs : _is_stock_error e = true
        · rw [if_pos hs] at h
          cases hmv2 : env.moveErr
              { mkMoveBody cfg mcfg env n cm co.id ps with applicable := false } with
          | none =>
            rw [hmv2] at h
            dsimp only at h
            injection h with h1 _
            subst h1
            refine ⟨hco, Or.inl ⟨mkMoveDoc n false, ?_⟩, rfl⟩
            simp [look]
          | some e2 =>
            rw [hmv2] at h
            dsimp only at h
            injection h with _ h2
            exact absurd h2 (by simp)
        · rw [if_neg hs] at h
          injection h with _ h2
          exact absurd h2 (by simp)

lemma processOrder_establishes (cfg : FboConfig) (mcfg : MoveCfg) (env : Env)
    (t : Int) (det : OrderDet) (st st2 : PassSt)
    (h : processOrder cfg mcfg env t det st = (st2, none)) :
    Settled cfg mcfg env t det st2.world st2.mem st2.cache := by
  unfold processOrder processOrderG at h
  by_cases hd : cfg.dry_run = true
  · right; right; left; exact hd
  cases hsel : selectOrder env t st.mem det with
  | skip =>
    rw [hsel] at h
    dsimp only at h
    injection h with h1 _
    subst h1
    left
    intro oid hgo
    exact absurd (hsel.symm.trans hgo) (by simp)
  | cancelSkip oid =>
    rw [hsel] at h
    dsimp only at h
    injection h with h1 _
    subst h1
    left
    intro oid2 hgo
    have hall := selectOrder_cancel_any env t st.mem det oid hsel (memPop st.mem oid)
    exact absurd (hall.symm.trans hgo) (by simp)
  | go oid =>
    rw [hsel] at h
    dsimp only at h
    by_cases hbid : (destInfo det).2 = ""
    · rw [if_pos hbid] at h
      injection h with h1 _
      subst h1
      right; left; left
      exact hbid
    · rw [if_neg hbid] at h
      have hbpself := buildPositions_goodExt_self env.cat
        (env.bundleItems (destInfo det).2) st.cache
      have hbpeq := buildPositions_congr env.cat (env.bundleItems (destInfo det).2)
        st.cache
        (buildPositions env.cat st.cache (env.bundleItems (destInfo det).2)).2.2
        hbpself
      cases herr : (buildPositions env.cat st.cache
          (env.bundleItems (destInfo det).2)).2.1 with
      | cons x xs =>
        rw [herr] at h
        dsimp only at h
        injection h with h1 _
        subst h1
        right; left; right
        show errsOf env (buildPositions env.cat st.cache
          (env.bundleItems (destInfo det).2)).2.2 det ≠ []
        unfold errsOf
        rw [hbpeq.2.1, herr]
        simp
      | nil =>
        rw [herr] at h
        dsimp only at h
        unfold coStageG at h
        cases hex : find_customerorder_by_name st.world det.order_number with
        | some co =>
          rw [hex] at h
          dsimp only at h
          have hms := moveStage_establishes cfg mcfg env oid det.order_number
            det.state (destInfo det).1 co
            (buildPositions env.cat st.cache (env.bundleItems (destInfo det).2)).1
            _ st2 (by revert hd; cases cfg.dry_run <;> simp) h hex
          right; right; right
          refine ⟨co, hms.1, ?_⟩
          rcases hms.2.1 with h1 | ⟨hnone, e, he, hcf⟩
          · exact Or.inl h1
          · right
            refine ⟨hnone, e, ?_, hcf⟩
            show env.moveErr (mkMoveBody cfg mcfg env det.order_number
              (destInfo det).1 co.id (posOf env st2.cache det)) = some e
            have hpos : posOf env st2.cache det =
                (buildPositions env.cat st.cache (env.bundleItems (destInfo det).2)).1 := by
              unfold posOf
              rw [hms.2.2]
              exact hbpeq.1
            rw [hpos]
            exact he
        | none =>
          rw [hex] at h
          dsimp only at h
          rw [if_neg hd] at h
          cases hco : env.coErr (mkCoBody cfg env det.order_number (destInfo det).1
              (buildPositions env.cat st.cache (env.bundleItems (destInfo det).2)).1
              det.timeslot_from) with
          | some e =>
            rw [hco] at h
            dsimp only at h
            injection h with _ h2
            exact absurd h2 (by simp)
          | none =>
            rw [hco] at h
            dsimp only at h
            have hcos : look ({ st with
                world := { st.world with
                  cos := (det.order_number, mkCoDoc det.order_number) :: st.world.cos },
                created := st.created + 1,
                cache := (buildPositions env.cat st.cache
                  (env.bundleItems (destInfo det).2)).2.2,
                trace := st.trace ++ [.createCustomerorder (mkCoBody cfg env
                  det.order_number (destInfo det).1
                  (buildPositions env.cat st.cache
                    (env.bundleItems (destInfo det).2)).1 det.timeslot_from)] } :
                PassSt).world.cos det.order_number = some (mkCoDoc det.order_number) := by
              simp [look]
            have hms := moveStage_establishes cfg mcfg env oid det.order_number
              det.state (destInfo det).1 (mkCoDoc det.order_number)
              (buildPositions env.cat st.cache (env.bundleItems (destInfo det).2)).1
              _ st2 (by revert hd; cases cfg.dry_run <;> simp) h hcos
            right; right; right
            refine ⟨mkCoDoc det.order_number, hms.1, ?_⟩
            rcases hms.2.1 with h1 | ⟨hnone, e, he, hcf⟩
            · exact Or.inl h1
            · right
              refine ⟨hnone, e, ?_, hcf⟩
              show env.moveErr (mkMoveBody cfg mcfg env det.order_number
                (destInfo det).1 (mkCoDoc det.order_number).id
                (posOf env st2.cache det)) = some e
              have hpos : posOf env st2.cache det =
                  (buildPositions env.cat st.cache
                    (env.bundleItems (destInfo det).2)).1 := by
                unfold posOf
                rw [hms.2.2]
                exact hbpeq.1
              rw [hpos]
              exact he

/-! ### Transport of settledness and pass-level relations (C2) -/

lemma settled_mono (cfg : FboConfig) (mcfg : MoveCfg) (env : Env) (t : Int)
    (det : OrderDet) (w w2 : World) (m m2 : Mem) (a a2 : Cache)
    (hQ : Settled cfg mcfg env t det w m a)
    (hcos : ∀ n d, look w.cos n = some d → look w2.cos n = some d)
    (hmoves : ∀ n d, look w.moves n = some d → look w2.moves n = some d)
    (hmem : ∀ oid, det.order_id = some oid →
        look m2 (toString oid) = look m (toString oid))
    (hext : GoodExt env.cat a a2) :
    Settled cfg mcfg env t det w2 m2 a2 := by
  rcases hQ with h1 | h2 | h3 | ⟨co, hco, hsub⟩
  · left
    intro oid hgo
    rw [selectOrder_congr env t det m m2 hmem] at hgo
    exact h1 oid hgo
  · right; left
    rcases h2 with h2 | h2
    · exact Or.inl h2
    · right
      have heq := (buildPositions_congr env.cat (env.bundleItems (destInfo det).2)
        a a2 hext).2.1
      unfold errsOf at h2 ⊢
      rw [heq]
      exact h2
  · right; right; left; exact h3
  · right; right; right
    refine ⟨co, hcos _ _ hco, ?_⟩
    rcases hsub with ⟨mv, hmv⟩ | ⟨hnone, e, he, hcf⟩
    · exact Or.inl ⟨mv, hmoves _ _ hmv⟩
    · cases hw2 : look w2.moves det.order_number with
      | some mv2 => exact Or.inl ⟨mv2, rfl⟩
      | none =>
        right
        refine ⟨rfl, e, ?_, hcf⟩
        have hpos : posOf env a2 det = posOf env a det := by
          unfold posOf
          exact (buildPositions_congr env.cat (env.bundleItems (destInfo det).2)
            a a2 hext).1
        rw [hpos]
        exact he

lemma runPassCore_rel (cfg : FboConfig) (mcfg : MoveCfg) (env : Env) (t : Int) :
    ∀ (orders : List OrderDet) (st st2 : PassSt),
      runPassCore cfg mcfg env t orders st = (st2, none) →
      (∀ n d, look st.world.cos n = some d → look st2.world.cos n = some d)
      ∧ (∀ n d, look st.world.moves n = some d → look st2.world.moves n = some d)
      ∧ GoodExt env.cat st.cache st2.cache
      ∧ (∀ k, (∀ det2, det2 ∈ orders → keyOf det2 ≠ some k) →
          look st2.mem k = look st.mem k) := by
  intro orders
  induction orders with
  | nil =>
    intro st st2 h
    unfold runPassCore at h
    injection h with h1 _
    subst h1
    exact ⟨fun n d hh => hh, fun n d hh => hh, goodExt_refl _ _, fun k _ => rfl⟩
  | cons det rest ih =>
    intro st st2 h
    unfold runPassCore at h
    cases hpo : processOrder cfg mcfg env t det st with
    | mk stm err =>
      rw [hpo] at h
      cases err with
      | some e =>
        dsimp only at h
        injection h with _ h2
        exact absurd h2 (by simp)
      | none =>
        dsimp only at h
        have hfr := processOrder_frame cfg mcfg env t det st
        rw [hpo] at hfr
        simp only at hfr
        obtain ⟨f1, f2, f3, f4⟩ := hfr
        obtain ⟨g1, g2, g3, g4⟩ := ih stm st2 h
        refine ⟨fun n d hh => g1 n d (f1 n d hh), fun n d hh => g2 n d (f2 n d hh),
          goodExt_trans _ _ _ _ f3 g3, ?_⟩
        intro k hk
        rw [g4 k (fun det2 hmem2 => hk det2 (List.mem_cons_of_mem det hmem2))]
        exact f4 k (hk det (List.mem_cons_self det rest))

lemma runPassCore_settles (cfg : FboConfig) (mcfg : MoveCfg) (env : Env) (t : Int) :
    ∀ (orders : List OrderDet) (st st2 : PassSt),
      runPassCore cfg mcfg env t orders st = (st2, none) →
      (orders.filterMap keyOf).Nodup →
      ∀ det2 ∈ orders, Settled cfg mcfg env t det2 st2.world st2.mem st2.cache := by
  intro orders
  induction orders with
  | nil =>
    intro st st2 h hn det2 hmem
    exact absurd hmem (by simp)
  | cons det rest ih =>
    intro st st2 h hn det2 hmem
    unfold runPassCore at h
    cases hpo : processOrder cfg mcfg env t det st with
    | mk stm err =>
      rw [hpo] at h
      cases err with
      | some e =>
        dsimp only at h
        injection h with _ h2
        exact absurd h2 (by simp)
      | none =>
        dsimp only at h
        rcases List.mem_cons.mp hmem with heq | hmem2
        · subst heq
          have hst := processOrder_establishes cfg mcfg env t det2 st stm hpo
          obtain ⟨g1, g2, g3, g4⟩ := runPassCore_rel cfg mcfg env t rest stm st2 h
          refine settled_mono cfg mcfg env t det2 stm.world st2.world stm.mem st2.mem
            stm.cache st2.cache hst g1 g2 ?_ g3
          intro oid hoid
          apply g4
          intro det3 hdet3 hkey
          have hkd : keyOf det2 = some (toString oid) := by
            simp [keyOf, hoid]
          rw [List.filterMap_cons_some hkd] at hn
          have hni := (List.nodup_cons.mp hn).1
          exact hni (List.mem_filterMap.mpr ⟨det3, hdet3, hkey⟩)
        · have hn2 : (rest.filterMap keyOf).Nodup := by
            cases hkd : keyOf det with
            | none =>
              rw [List.filterMap_cons_none hkd] at hn
              exact hn
            | some k =>
              rw [List.filterMap_cons_some hkd] at hn
              exact (List.nodup_cons.mp hn).2
          exact ih stm st2 h hn2 det2 hmem2

/-! ### Replay: processing a settled order creates nothing (C2) -/

lemma moveStage_replay_dry (cfg : FboConfig) (mcfg : MoveCfg) (env : Env)
    (oid n state cm : String) (co : MsDoc) (ps : List Position)
    (a1 : Cache) (st1 : PassSt)
    (hdy : cfg.dry_run = true)
    (hext2 : GoodExt env.cat a1 st1.cache) :
    (moveStage cfg mcfg env oid n state cm co ps st1).2 = none
    ∧ (moveStage cfg mcfg env oid n state cm co ps st1).1.world = st1.world
    ∧ (moveStage cfg mcfg env oid n state cm co ps st1).1.created = st1.created
    ∧ GoodExt env.cat a1 (moveStage cfg mcfg env oid n state cm co ps st1).1.cache
    ∧ (∀ k, k ≠ oid →
        look (moveStage cfg mcfg env oid n state cm co ps st1).1.mem k = look st1.mem k) := by
  unfold moveStage
  cases hf : find_move_by_name st1.world n with
  | some mv =>
    exact ⟨rfl, rfl, rfl, hext2, fun k hk => look_memPop_ne st1.mem oid k hk⟩
  | none =>
    dsimp only
    rw [if_pos hdy]
    exact ⟨rfl, rfl, rfl, hext2, fun k hk => look_memSet_ne st1.mem oid k _ hk⟩

lemma moveStage_replay_live (cfg : FboConfig) (mcfg : MoveCfg) (env : Env)
    (oid n state cm : String) (co : MsDoc) (ps : List Position)
    (a1 : Cache) (st1 : PassSt)
    (hdy : cfg.dry_run = false)
    (hext2 : GoodExt env.cat a1 st1.cache)
    (hsub : (∃ mv, find_move_by_name st1.world n = some mv)
          ∨ (find_move_by_name st1.world n = none ∧
             ∃ e, env.moveErr (mkMoveBody cfg mcfg env n cm co.id ps) = some e ∧
                  _is_name_conflict e = true)) :
    (moveStage cfg mcfg env oid n state cm co ps st1).2 = none
    ∧ (moveStage cfg mcfg env oid n state cm co ps st1).1.world = st1.world
    ∧ (moveStage cfg mcfg env oid n state cm co ps st1).1.created = st1.created
    ∧ GoodExt env.cat a1 (moveStage cfg mcfg env oid n state cm co ps st1).1.cache
    ∧ (∀ k, k ≠ oid →
        look (moveStage cfg mcfg env oid n state cm co ps st1).1.mem k = look st1.mem k) := by
  unfold moveStage
  rcases hsub with ⟨mv, hmv⟩ | ⟨hnone, e, he, hcf⟩
  · rw [hmv]
    exact ⟨rfl, rfl, rfl, hext2, fun k hk => look_memPop_ne st1.mem oid k hk⟩
  · rw [hnone]
    dsimp only
    rw [if_neg (by rw [hdy]; exact Bool.false_ne_true)]
    rw [he]
    dsimp only
    rw [if_pos hcf]
    exact ⟨rfl, rfl, rfl, hext2, fun k hk => look_memPop_ne st1.mem oid k hk⟩

lemma processOrder_replay (cfg : FboConfig) (mcfg : MoveCfg) (env : Env) (t : Int)
    (det : OrderDet) (w1 : World) (m1 : Mem) (a1 : Cache) (st : PassSt)
    (hQ : Settled cfg mcfg env t det w1 m1 a1)
    (hw : st.world = w1)
    (hmem : ∀ oid, det.order_id = some oid →
        look st.mem (toString oid) = look m1 (toString oid))
    (hext : GoodExt env.cat a1 st.cache) :
    (processOrder cfg mcfg env t det st).2 = none
    ∧ (processOrder cfg mcfg env t det st).1.world = st.world
    ∧ (processOrder cfg mcfg env t det st).1.created = st.created
    ∧ GoodExt env.cat a1 (processOrder cfg mcfg env t det st).1.cache
    ∧ (∀ k, keyOf det ≠ some k →
        look (processOrder cfg mcfg env t det st).1.mem k = look st.mem k) := by
  unfold processOrder processOrderG
  cases hsel : selectOrder env t st.mem det with
  | skip => exact ⟨rfl, rfl, rfl, hext, fun k hk => rfl⟩
  | cancelSkip oid =>
    have hko := selectOrder_cancel_key env t st.mem det oid hsel
    refine ⟨rfl, rfl, rfl, hext, ?_⟩
    intro k hk
    have hne : k ≠ oid := fun hc => hk (by rw [hko, hc])
    exact look_memPop_ne st.mem oid k hne
  | go oid =>
    have hko := selectOrder_go_key env t st.mem det oid hsel
    dsimp only
    by_cases hbid : (destInfo det).2 = ""
    · rw [if_pos hbid]
      exact ⟨rfl, rfl, rfl, hext, fun k hk => rfl⟩
    · rw [if_neg hbid]
      have hbpself := buildPositions_goodExt_self env.cat
        (env.bundleItems (destInfo det).2) st.cache
      have hext2 : GoodExt env.cat a1
          (buildPositions env.cat st.cache (env.bundleItems (destInfo det).2)).2.2 :=
        goodExt_trans _ _ _ _ hext hbpself
      cases herr : (buildPositions env.cat st.cache
          (env.bundleItems (destInfo det).2)).2.1 with
      | cons x xs =>
        exact ⟨rfl, rfl, rfl, hext2, fun k hk => rfl⟩
      | nil =>
        dsimp only
        unfold coStageG
        by_cases hdy : cfg.dry_run = true
        · cases hex : find_customerorder_by_name st.world det.order_number with
          | some co =>
            dsimp only
            have hms := moveStage_replay_dry cfg mcfg env oid det.order_number
              det.state (destInfo det).1 co
              (buildPositions env.cat st.cache (env.bundleItems (destInfo det).2)).1
              a1
              { st with cache := (buildPositions env.cat st.cache
                  (env.bundleItems (destInfo det).2)).2.2 }
              hdy hext2
            refine ⟨hms.1, hms.2.1, hms.2.2.1, hms.2.2.2.1, ?_⟩
            intro k hk
            have hne : k ≠ oid := fun hc => hk (by rw [hko, hc])
            exact hms.2.2.2.2 k hne
          | none =>
            dsimp only
            rw [if_pos hdy]
            have hms := moveStage_replay_dry cfg mcfg env oid det.order_number
              det.state (destInfo det).1 ⟨"DRY", "DRY", none⟩
              (buildPositions env.cat st.cache (env.bundleItems (destInfo det).2)).1
              a1
              { st with cache := (buildPositions env.cat st.cache
                  (env.bundleItems (destInfo det).2)).2.2 }
              hdy hext2
            refine ⟨hms.1, hms.2.1, hms.2.2.1, hms.2.2.2.1, ?_⟩
            intro k hk
            have hne : k ≠ oid := fun hc => hk (by rw [hko, hc])
            exact hms.2.2.2.2 k hne
        · have hdy2 : cfg.dry_run = false := by
            revert hdy; cases cfg.dry_run <;> simp
          have hQ4 : ∃ co, look w1.cos det.order_number = some co ∧
              ((∃ mv, look w1.moves det.order_number = some mv)
               ∨ (look w1.moves det.order_number = none ∧
                  ∃ e, env.moveErr (mkMoveBody cfg mcfg env det.order_number
                        (destInfo det).1 co.id (posOf env a1 det)) = some e ∧
                       _is_name_conflict e = true)) := by
            rcases hQ with h1 | h2 | h3 | h4
            · exfalso
              apply h1 oid
              rw [← selectOrder_congr env t det m1 st.mem hmem]
              exact hsel
            · rcases h2 with h2 | h2
              · exact absurd h2 hbid
              · exfalso
                apply h2
                unfold errsOf
                rw [← (buildPositions_congr env.cat (env.bundleItems (destInfo det).2)
                  a1 st.cache hext).2.1]
                exact herr
            · exact absurd h3 hdy
            · exact h4
          obtain ⟨co, hco, hsub⟩ := hQ4
          have hex : find_customerorder_by_name st.world det.order_number = some co := by
            show look st.world.cos det.order_number = some co
            rw [hw]
            exact hco
          rw [hex]
          dsimp only
          have hpos : posOf env a1 det =
              (buildPositions env.cat st.cache (env.bundleItems (destInfo det).2)).1 := by
            unfold posOf
            exact ((buildPositions_congr env.cat (env.bundleItems (destInfo det).2)
              a1 st.cache hext).1).symm
          have hsub2 : (∃ mv, find_move_by_name
                ({ st with cache := (buildPositions env.cat st.cache
                    (env.bundleItems (destInfo det).2)).2.2 } : PassSt).world
                det.order_number = some mv)
              ∨ (find_move_by_name
                  ({ st with cache := (buildPositions env.cat st.cache
                      (env.bundleItems (destInfo det).2)).2.2 } : PassSt).world
                  det.order_number = none ∧
                 ∃ e, env.moveErr (mkMoveBody cfg mcfg env det.order_number
                      (destInfo det).1 co.id
                      (buildPositions env.cat st.cache
                        (env.bundleItems (destInfo det).2)).1) = some e ∧
                      _is_name_conflict e = true) := by
            rcases hsub with ⟨mv, hmv⟩ | ⟨hnone, e, he, hcf⟩
            · refine Or.inl ⟨mv, ?_⟩
              show look st.world.moves det.order_number = some mv
              rw [hw]
              exact hmv
            · refine Or.inr ⟨?_, e, ?_, hcf⟩
              · show look st.world.moves det.order_number = none
                rw [hw]
                exact hnone
              · rw [← hpos]
                exact he
          have hms := moveStage_replay_live cfg mcfg env oid det.order_number
            det.state (destInfo det).1 co
            (buildPositions env.cat st.cache (env.bundleItems (destInfo det).2)).1
            a1
            { st with cache := (buildPositions env.cat st.cache
                (env.bundleItems (destInfo det).2)).2.2 }
            hdy2 hext2 hsub2
          refine ⟨hms.1, hms.2.1, hms.2.2.1, hms.2.2.2.1, ?_⟩
          intro k hk
          have hne : k ≠ oid := fun hc => hk (by rw [hko, hc])
          exact hms.2.2.2.2 k hne

lemma runPassCore_replay (cfg : FboConfig) (mcfg : MoveCfg) (env : Env) (t : Int)
    (w1 : World) (m1 : Mem) (a1 : Cache) :
    ∀ (orders : List OrderDet) (st : PassSt),
      (∀ det2 ∈ orders, Settled cfg mcfg env t det2 w1 m1 a1) →
      (orders.filterMap keyOf).Nodup →
      st.world = w1 →
      (∀ det2 ∈ orders, ∀ oid, det2.order_id = some oid →
          look st.mem (toString oid) = look m1 (toString oid)) →
      GoodExt env.cat a1 st.cache →
      (runPassCore cfg mcfg env t orders st).2 = none
      ∧ (runPassCore cfg mcfg env t orders st).1.world = w1
      ∧ (runPassCore cfg mcfg env t orders st).1.created = st.created := by
  intro orders
  induction orders with
  | nil =>
    intro st _ _ hw _ _
    exact ⟨rfl, hw, rfl⟩
  | cons det rest ih =>
    intro st hQ hn hw hm hext
    have hrep := processOrder_replay cfg mcfg env t det w1 m1 a1 st
      (hQ det (List.mem_cons_self det rest)) hw
      (fun oid hoid => hm det (List.mem_cons_self det rest) oid hoid) hext
    unfold runPassCore
    cases hpo : processOrder cfg mcfg env t det st with
    | mk stm err =>
      rw [hpo] at hrep
      simp only at hrep
      obtain ⟨r1, r2, r3, r4, r5⟩ := hrep
      cases err with
      | some e => exact absurd r1 (by simp)
      | none =>
        dsimp only
        have hnodup2 : (rest.filterMap keyOf).Nodup := by
          cases hkd : keyOf det with
          | none =>
            rw [List.filterMap_cons_none hkd] at hn
            exact hn
          | some k =>
            rw [List.filterMap_cons_some hkd] at hn
            exact (List.nodup_cons.mp hn).2
        have hm2 : ∀ det2 ∈ rest, ∀ oid, det2.order_id = some oid →
            look stm.mem (toString oid) = look m1 (toString oid) := by
          intro det2 h2 oid hoid
          have hkdet : keyOf det ≠ some (toString oid) := by
            cases hkd : keyOf det with
            | none => simp
            | some kd =>
              rw [List.filterMap_cons_some hkd] at hn
              have hni := (List.nodup_cons.mp hn).1
              intro hc
              injection hc with hc2
              apply hni
              rw [hc2]
              exact List.mem_filterMap.mpr ⟨det2, h2, by simp [keyOf, hoid]⟩
          rw [r5 (toString oid) hkdet]
          exact hm det2 (List.mem_cons_of_mem det h2) oid hoid
        have ihm := ih stm (fun det2 h2 => hQ det2 (List.mem_cons_of_mem det h2))
          hnodup2 (r2.trans hw) hm2 r4
        exact ⟨ihm.1, ihm.2.1, ihm.2.2.trans r3⟩

/-- C2: the reconciliation pass is idempotent.  If a pass over a fixed list
of order details (fetched states unchanged, orders with pairwise-distinct
ids as the order source guarantees) completes without an uncaught
exception, then a second pass over the same orders, run against the exact
state the first pass left behind (same deterministic environment, same
window start, no interference between the passes), also completes, creates
zero documents — its createdCount is 0 and the downstream document store is
exactly the first pass's — because every order is either skipped by
selection or memory, fails resolution identically, or finds its documents
already present and is forgotten or no-ops. -/
theorem pass_idempotent (cfg : FboConfig) (mcfg : MoveCfg) (env : Env)
    (startTs : Int) (orders : List OrderDet) (w0 : World) (m0 : Mem) (a0 : Cache)
    (st1 : PassSt)
    (hnodup : (orders.filterMap keyOf).Nodup)
    (h1 : runPass cfg mcfg env startTs orders w0 m0 a0 = (st1, none)) :
    (runPass cfg mcfg env startTs orders st1.world st1.mem st1.cache).2 = none
    ∧ (runPass cfg mcfg env startTs orders st1.world st1.mem st1.cache).1.world = st1.world
    ∧ (runPass cfg mcfg env startTs orders st1.world st1.mem st1.cache).1.created = 0 := by
  unfold runPass at h1 ⊢
  have hset := runPassCore_settles cfg mcfg env startTs orders
    ⟨w0, m0, a0, 0, 0, []⟩ st1 h1 hnodup
  have hrep := runPassCore_replay cfg mcfg env startTs st1.world st1.mem st1.cache
    orders ⟨st1.world, st1.mem, st1.cache, 0, 0, []⟩ hset hnodup rfl
    (fun det2 _ oid _ => rfl) (goodExt_refl _ _)
  exact ⟨hrep.1, hrep.2.1, hrep.2.2⟩

/-- Witness for C2: a concrete completed pass over one fresh order; the
second pass from its final state completes with createdCount 0 and an
unchanged document store. -/
theorem pass_idempotent_witness :
    (runPass wCfg wMoveCfg wEnv 0 [wDet]
      (runPass wCfg wMoveCfg wEnv 0 [wDet] ⟨[], []⟩ [] []).1.world
      (runPass wCfg wMoveCfg wEnv 0 [wDet] ⟨[], []⟩ [] []).1.mem
      (runPass wCfg wMoveCfg wEnv 0 [wDet] ⟨[], []⟩ [] []).1.cache).1.created = 0
    ∧ (runPass wCfg wMoveCfg wEnv 0 [wDet]
      (runPass wCfg wMoveCfg wEnv 0 [wDet] ⟨[], []⟩ [] []).1.world
      (runPass wCfg wMoveCfg wEnv 0 [wDet] ⟨[], []⟩ [] []).1.mem
      (runPass wCfg wMoveCfg wEnv 0 [wDet] ⟨[], []⟩ [] []).1.cache).2 = none := by
  have h := pass_idempotent wCfg wMoveCfg wEnv 0 [wDet] ⟨[], []⟩ [] []
    (runPass wCfg wMoveCfg wEnv 0 [wDet] ⟨[], []⟩ [] []).1
    (by decide) (by decide)
  exact ⟨h.2.2, h.1⟩

end FboSync
